import Mathlib

/-! The mono host adapter of corehost/cli/hostpolicy/mono.cpp

A shallow embedding of `mono.h` / `mono.cpp`:

* the property bag `mono_property_bag_t` (an `std::unordered_map` from string to string),
* the process-wide binder state (`g_mono` and the four resolved entry points) and `mono_bind`,
* the runtime host handle `mono_t` with `create`, `execute_assembly`, `create_delegate`,
  `shutdown`.

Conventions of the embedding.

* A C pointer is an `Option`: `none` is `nullptr`, `some x` points to an object whose content
  is `x`.  An out-parameter is passed in with its content before the call and handed back with
  its content after the call.
* A member function that is not `const` takes the object and hands back the object.
* `assert` is the macro of `<cassert>`: it is checked unless `NDEBUG` is defined.  Every function
  that contains an `assert` takes the build flag `NDEBUG`.  A failed assertion stops the program
  (`Fault.assertion`); an operation the language leaves undefined (a call through a null function
  pointer, an index past the end of an array, a `std::string` built from `nullptr`) stops the
  model with `Fault.undefined`; a C++ exception that leaves a function (nothing in `mono.cpp`
  catches one) is `Fault.exception`.
* `int` has 32 bits.  The size of a container is a natural number; `static_cast<int>` takes
  it modulo `2^32` into the range of `int`.
* What `mono.cpp` takes from `pal.h`, `utils.h` and `error_codes.h`, and what the loaded
  runtime library does when one of its entry points is called, is the parameter `Env`.
* `std::mutex _shutdown_lock` serialises `shutdown`; the model is sequential, so taking and
  releasing the lock has no effect on it.
-/

set_option linter.dupNamespace false

namespace Mono

/-! ## Basic types -/

/-- The string type `pal::string_t`. -/
abbrev string_t := String

/-- The status type `pal::hresult_t`. -/
abbrev hresult_t := Int

/-- How a run of the program can stop without returning. -/
inductive Fault
  | assertion
  | undefined
  | exception
  deriving DecidableEq, Repr

deriving instance DecidableEq for Except

/-- The macro `assert(cond)` of `<cassert>`: nothing when `NDEBUG` is defined. -/
def cassert (NDEBUG cond : Bool) : Except Fault Unit :=
  if NDEBUG || cond then .ok () else .error .assertion

/-- Reading `a[i]` of a C array or `std::vector` with an `int` index. -/
def array_get {α : Type} (a : List α) (i : Int) : Except Fault α :=
  if 0 ≤ i then
    match a.get? i.toNat with
    | some x => .ok x
    | none => .error .undefined
  else .error .undefined

/-- Writing `a[i] = x` of a `std::vector` with an `int` index. -/
def array_set {α : Type} (a : List α) (i : Int) (x : α) : Except Fault (List α) :=
  if 0 ≤ i ∧ i.toNat < a.length then .ok (a.set i.toNat x) else .error .undefined

/-- The conversion `static_cast<int>(n)` of a `size_t` value `n`: the value modulo `2^32`,
read as a 32-bit two's complement number. -/
def static_cast_int_size_t (n : Nat) : Int :=
  if n % 4294967296 < 2147483648 then Int.ofNat (n % 4294967296)
  else Int.ofNat (n % 4294967296) - 4294967296

/-! ## `common_property` (mono.h 56-74) and `PropertyNameMapping` (mono.cpp 193-210) -/

/-- The enumeration `enum class common_property`, sentinel included. -/
inductive common_property
  | TrustedPlatformAssemblies
  | NativeDllSearchDirectories
  | PlatformResourceRoots
  | AppDomainCompatSwitch
  | AppContextBaseDirectory
  | AppContextDepsFiles
  | FxDepsFile
  | ProbingDirectories
  | FxProductVersion
  | JitPath
  | StartUpHooks
  | AppPaths
  | AppNIPaths
  | Last
  deriving DecidableEq, Repr

/-- The conversion `static_cast<int>(key)`: enumerators count from zero in declaration order. -/
def static_cast_int : common_property → Int
  | .TrustedPlatformAssemblies => 0
  | .NativeDllSearchDirectories => 1
  | .PlatformResourceRoots => 2
  | .AppDomainCompatSwitch => 3
  | .AppContextBaseDirectory => 4
  | .AppContextDepsFiles => 5
  | .FxDepsFile => 6
  | .ProbingDirectories => 7
  | .FxProductVersion => 8
  | .JitPath => 9
  | .StartUpHooks => 10
  | .AppPaths => 11
  | .AppNIPaths => 12
  | .Last => 13

/-- The table `PropertyNameMapping[]`. -/
def PropertyNameMapping : List string_t :=
  [ "TRUSTED_PLATFORM_ASSEMBLIES",
    "NATIVE_DLL_SEARCH_DIRECTORIES",
    "PLATFORM_RESOURCE_ROOTS",
    "AppDomainCompatSwitch",
    "APP_CONTEXT_BASE_DIRECTORY",
    "APP_CONTEXT_DEPS_FILES",
    "FX_DEPS_FILE",
    "PROBING_DIRECTORIES",
    "FX_PRODUCT_VERSION",
    "JIT_PATH",
    "STARTUP_HOOKS",
    "APP_PATHS",
    "APP_NI_PATHS" ]

/-! ## `std::unordered_map<pal::string_t, pal::string_t>`

The container is the list of its elements in iteration order.  The standard leaves the place
of a new element in that order open; here a new element goes to the end. -/

namespace unordered_map

/-- The call `m.find(key)`: the element with that key, `none` for `cend()`. -/
def find : List (string_t × string_t) → string_t → Option (string_t × string_t)
  | [], _ => none
  | kv :: m, key => if kv.1 = key then some kv else find m key

/-- The call `m.emplace(key, value)`: inserts unless the key is there already. -/
def emplace : List (string_t × string_t) → string_t → string_t → List (string_t × string_t)
  | [], key, value => [(key, value)]
  | kv :: m, key, value => if kv.1 = key then kv :: m else kv :: emplace m key value

/-- The statement `m[key] = value`. -/
def assign : List (string_t × string_t) → string_t → string_t → List (string_t × string_t)
  | [], key, value => [(key, value)]
  | kv :: m, key, value => if kv.1 = key then (kv.1, value) :: m else kv :: assign m key value

/-- The call `m.erase(m.find(key))` for a key that was found; nothing to erase otherwise. -/
def erase : List (string_t × string_t) → string_t → List (string_t × string_t)
  | [], _ => []
  | kv :: m, key => if kv.1 = key then m else kv :: erase m key

/-- The call `m.size()`. -/
def size (m : List (string_t × string_t)) : Nat := m.length

/-- The call `m.reserve(n)`: a capacity hint, the elements stay as they are. -/
def reserve (m : List (string_t × string_t)) (_n : Nat) : List (string_t × string_t) := m

end unordered_map

/-! ## `mono_property_bag_t` (mono.h 76-102, mono.cpp 213-301) -/

/-- The class `mono_property_bag_t`: its only member is `_properties`. -/
structure mono_property_bag_t where
  _properties : List (string_t × string_t)
  deriving DecidableEq, Repr

namespace mono_property_bag_t

/-- The static member `common_property_to_string` (mono.cpp 213-219). -/
def common_property_to_string (NDEBUG : Bool) (key : common_property) :
    Except Fault string_t := do
  let idx := static_cast_int key
  cassert NDEBUG (decide (0 ≤ idx) && decide (idx < static_cast_int common_property.Last))
  array_get PropertyNameMapping idx

/-- The constructor (mono.cpp 221-226): an empty map with room reserved. -/
def mono_property_bag_t : mono_property_bag_t :=
  { _properties := unordered_map.reserve [] (2 * (static_cast_int common_property.Last).toNat) }

/-- The string-keyed `add` (mono.cpp 236-253).  The `trace::verbose` line of the overwrite
branch goes to the diagnostics sink and leaves the bag alone; it is not part of the result. -/
def add (self : Mono.mono_property_bag_t) (key value : Option string_t) :
    Bool × Mono.mono_property_bag_t :=
  match key, value with
  | some k, some v =>
    match unordered_map.find self._properties k with
    | none => (true, { _properties := unordered_map.emplace self._properties k v })
    | some _ => (false, { _properties := unordered_map.assign self._properties k v })
  | _, _ => (false, self)

/-- The `common_property` overload of `add` (mono.cpp 228-234). -/
def add_common_property (NDEBUG : Bool) (self : Mono.mono_property_bag_t)
    (key : common_property) (value : Option string_t) :
    Except Fault (Bool × Mono.mono_property_bag_t) := do
  let idx := static_cast_int key
  cassert NDEBUG (decide (0 ≤ idx) && decide (idx < static_cast_int common_property.Last))
  let name ← array_get PropertyNameMapping idx
  pure (add self (some name) value)

/-- What `try_get` hands back: the return value, the out-parameter `value` (a pointer to a
`const pal::char_t*` slot) and the bag. -/
structure try_get_result where
  ret : Bool
  value : Option (Option string_t)
  self : Mono.mono_property_bag_t
  deriving DecidableEq, Repr

/-- The string-keyed `try_get` (mono.cpp 263-272). -/
def try_get (NDEBUG : Bool) (self : Mono.mono_property_bag_t) (key : Option string_t)
    (value : Option (Option string_t)) : Except Fault try_get_result := do
  cassert NDEBUG (key.isSome && value.isSome)
  match key with
  | none => .error .undefined
  | some k =>
    match unordered_map.find self._properties k with
    | none => pure { ret := false, value := value, self := self }
    | some kv =>
      match value with
      | none => .error .undefined
      | some _ => pure { ret := true, value := some (some kv.2), self := self }

/-- The `common_property` overload of `try_get` (mono.cpp 255-261). -/
def try_get_common_property (NDEBUG : Bool) (self : Mono.mono_property_bag_t)
    (key : common_property) (value : Option (Option string_t)) :
    Except Fault try_get_result := do
  let idx := static_cast_int key
  cassert NDEBUG (decide (0 ≤ idx) && decide (idx < static_cast_int common_property.Last))
  let name ← array_get PropertyNameMapping idx
  try_get NDEBUG self (some name) value

/-- The member `remove` (mono.cpp 274-284). -/
def remove (self : Mono.mono_property_bag_t) (key : Option string_t) :
    Mono.mono_property_bag_t :=
  match key with
  | none => self
  | some k =>
    match unordered_map.find self._properties k with
    | none => self
    | some _ => { _properties := unordered_map.erase self._properties k }

/-- The member `count` (mono.cpp 292-295): the size of the map, converted to `int`. -/
def count (self : Mono.mono_property_bag_t) : Int :=
  static_cast_int_size_t (unordered_map.size self._properties)

/-- The member `enumerate` (mono.cpp 297-301): the callback is a `std::function` that acts on
what it captured, here the state `σ`. -/
def enumerate {σ : Type} (self : Mono.mono_property_bag_t)
    (callback : string_t → string_t → σ → σ) (s : σ) : σ :=
  self._properties.foldl (fun s kv => callback kv.1 kv.2 s) s

/-- Whether `try_get(key, &slot)` finds the key: its return value for a non-null key and a
non-null out-parameter. -/
def has (self : Mono.mono_property_bag_t) (key : string_t) : Bool :=
  match try_get true self (some key) (some none) with
  | .ok r => r.ret
  | .error _ => false

/-- One mutating call on a bag: the string-keyed `add`, or `remove`. -/
inductive bag_op
  | add (key value : Option string_t)
  | remove (key : Option string_t)
  deriving DecidableEq, Repr

/-- The key pointer a call is given. -/
def bag_op.key : bag_op → Option string_t
  | .add key _ => key
  | .remove key => key

/-- The bag after one call. -/
def apply (self : Mono.mono_property_bag_t) : bag_op → Mono.mono_property_bag_t
  | .add key value => (add self key value).2
  | .remove key => remove self key

/-- The bag after a sequence of calls, first call first. -/
def apply_all (self : Mono.mono_property_bag_t) (ops : List bag_op) :
    Mono.mono_property_bag_t :=
  ops.foldl apply self

/-- The bag a caller has after constructing it and making the calls `ops`. -/
def reach (ops : List bag_op) : Mono.mono_property_bag_t :=
  apply_all mono_property_bag_t ops

/-- The key number `i` of a bag with many entries: `i` letters `k`. -/
def many_key (i : Nat) : string_t :=
  String.mk (List.replicate i 'k')

/-- The calls `add(key 0, "")`, ..., `add(key (n-1), "")`: they put `n` entries with pairwise
different keys into a bag. -/
def many_adds (n : Nat) : List bag_op :=
  (List.range n).map (fun i => bag_op.add (some (many_key i)) (some ""))

end mono_property_bag_t

/-! ## The process: binder state and the calls that leave `mono.cpp` -/

/-- The handle type `mono_t::host_handle_t`, a `void*` that this layer never looks into. -/
abbrev host_handle_t := Nat

/-- The domain id type `mono_t::domain_id_t`. -/
abbrev domain_id_t := Nat

/-- The library handle type `pal::dll_t`, a pointer. -/
abbrev dll_t := Option Nat

/-- A `const char*` argument. -/
abbrev c_str := Option String

/-- One call that leaves `mono.cpp`, with its arguments: the loader, the error trace line and
the four entry points of the loaded library (`fn` is the address called). -/
inductive Call
  | load_library (path : string_t)
  | get_symbol (library : dll_t) (name : String)
  | trace_error (format : String) (arg : string_t)
  | coreclr_initialize (fn : Nat) (exePath appDomainFriendlyName : c_str) (propertyCount : Int)
      (propertyKeys propertyValues : List (Option (List Char)))
  | coreclr_shutdown_2 (fn : Nat) (hostHandle : host_handle_t) (domainId : domain_id_t)
      (latchedExitCode : Option Int)
  | coreclr_execute_assembly (fn : Nat) (hostHandle : host_handle_t) (domainId : domain_id_t)
      (argc : Int) (argv : List c_str) (managedAssemblyPath : c_str) (exitCode : Option Nat)
  | coreclr_create_delegate (fn : Nat) (hostHandle : host_handle_t) (domainId : domain_id_t)
      (entryPointAssemblyName entryPointTypeName entryPointMethodName : c_str)
      (delegate : Option Nat)
  deriving DecidableEq, Repr

/-- What a call through a `mono_initialize_fn` pointer leaves behind: the status and the
content of `*hostHandle` and `*domainId` when it returns. -/
structure initialize_result where
  hr : hresult_t
  hostHandle : host_handle_t
  domainId : domain_id_t
  deriving DecidableEq, Repr

/-- The surroundings of `mono.cpp`: the constants, macros and helpers it takes from `pal.h`,
`utils.h` and `error_codes.h`, the build flag, and the behaviour of the loaded library.  Every
answer of the outside world may depend on the calls made so far (first argument). -/
structure Env where
  /-- Whether `NDEBUG` is defined, so that `assert` expands to nothing. -/
  NDEBUG : Bool
  /-- The constant `StatusCode::Success` of `error_codes.h`. -/
  Success : hresult_t
  /-- The constant `StatusCode::CoreClrBindFailure` of `error_codes.h`. -/
  CoreClrBindFailure : hresult_t
  /-- The macro `SUCCEEDED` of `pal.h`. -/
  SUCCEEDED : hresult_t → Bool
  /-- The macro `LIBMONO_NAME`. -/
  LIBMONO_NAME : string_t
  /-- The helper `append_path` of `utils.h`, as the path it leaves in its first argument. -/
  append_path : string_t → string_t → string_t
  /-- The helper `pal::pal_clrstring`: from the string and the vector it writes to, its return
  value and the vector afterwards. -/
  pal_clrstring : string_t → List Char → Bool × List Char
  /-- The loader `pal::load_library`: from the path and `*dll` before, its return value and
  `*dll` afterwards. -/
  load_library : List Call → string_t → dll_t → Bool × dll_t
  /-- The lookup `pal::get_symbol`. -/
  get_symbol : List Call → dll_t → String → Option Nat
  /-- A call through a `mono_initialize_fn` pointer. -/
  mono_initialize_fn : List Call → Nat → c_str → c_str → Int →
    List (Option (List Char)) → List (Option (List Char)) → initialize_result
  /-- A call through a `mono_shutdown_fn` pointer: the status and, for a non-null
  `latchedExitCode`, the content of `*latchedExitCode` when it returns. -/
  mono_shutdown_fn : List Call → Nat → host_handle_t → domain_id_t → Option Int →
    hresult_t × Int
  /-- A call through a `mono_execute_assembly_fn` pointer: the status and, for a non-null
  `exitCode`, the content of `*exitCode` when it returns. -/
  mono_execute_assembly_fn : List Call → Nat → host_handle_t → domain_id_t → Int →
    List c_str → c_str → Option Nat → hresult_t × Nat
  /-- A call through a `mono_create_delegate_fn` pointer: the status and, for a non-null
  `delegate`, the content of `*delegate` when it returns. -/
  mono_create_delegate_fn : List Call → Nat → host_handle_t → domain_id_t → c_str → c_str →
    c_str → Option Nat → hresult_t × Nat

/-- The state of the process as far as `mono.cpp` is concerned: the five variables of its
anonymous namespace (mono.cpp 47-51) and the calls made so far. -/
structure Process where
  g_mono : dll_t
  coreclr_shutdown : Option Nat
  coreclr_initialize : Option Nat
  coreclr_execute_assembly : Option Nat
  coreclr_create_delegate : Option Nat
  calls : List Call
  deriving DecidableEq, Repr

/-- The process before anything ran: the initialisers of mono.cpp 47-51. -/
def Process.start : Process :=
  { g_mono := none, coreclr_shutdown := none, coreclr_initialize := none,
    coreclr_execute_assembly := none, coreclr_create_delegate := none, calls := [] }

/-- Appends one call to the record. -/
def Process.record (p : Process) (c : Call) : Process :=
  { p with calls := p.calls ++ [c] }

/-- The function `mono_bind` (mono.cpp 53-76). -/
def mono_bind (env : Env) (p : Process) (libmono_path : string_t) :
    Process × Except Fault Bool :=
  match cassert env.NDEBUG p.g_mono.isNone with
  | .error f => (p, .error f)
  | .ok _ =>
    let mono_dll_path := env.append_path libmono_path env.LIBMONO_NAME
    let loaded := env.load_library p.calls mono_dll_path p.g_mono
    let p1 := { p.record (Call.load_library mono_dll_path) with g_mono := loaded.2 }
    if !loaded.1 then (p1, .ok false)
    else
      let p2 := { p1.record (Call.get_symbol p1.g_mono "coreclr_initialize") with
        coreclr_initialize := env.get_symbol p1.calls p1.g_mono "coreclr_initialize" }
      let p3 := { p2.record (Call.get_symbol p2.g_mono "coreclr_shutdown_2") with
        coreclr_shutdown := env.get_symbol p2.calls p2.g_mono "coreclr_shutdown_2" }
      let p4 := { p3.record (Call.get_symbol p3.g_mono "coreclr_execute_assembly") with
        coreclr_execute_assembly :=
          env.get_symbol p3.calls p3.g_mono "coreclr_execute_assembly" }
      let p5 := { p4.record (Call.get_symbol p4.g_mono "coreclr_create_delegate") with
        coreclr_create_delegate :=
          env.get_symbol p4.calls p4.g_mono "coreclr_create_delegate" }
      match cassert env.NDEBUG
          (p5.coreclr_initialize.isSome && p5.coreclr_shutdown.isSome
            && p5.coreclr_execute_assembly.isSome && p5.coreclr_create_delegate.isSome) with
      | .error f => (p5, .error f)
      | .ok _ => (p5, .ok true)

/-! ## `mono_t` (mono.h 18-54, mono.cpp 79-189) -/

/-- The class `mono_t`, without its mutex. -/
structure mono_t where
  _is_shutdown : Bool
  _host_handle : host_handle_t
  _domain_id : domain_id_t
  deriving DecidableEq, Repr

namespace mono_t

/-- The constructor (mono.cpp 130-135). -/
def mono_t (host_handle : host_handle_t) (domain_id : domain_id_t) : Mono.mono_t :=
  { _is_shutdown := false, _host_handle := host_handle, _domain_id := domain_id }

/-- The local vectors of `create` and the index its callback advances (mono.cpp 98-102). -/
structure create_locals where
  keys_strs : List (List Char)
  keys : List (Option (List Char))
  values_strs : List (List Char)
  values : List (Option (List Char))
  index : Int
  deriving DecidableEq, Repr

/-- The lambda `callback` of `create` (mono.cpp 103-110), acting on the locals it captured by
reference.  A pointer `keys_strs[index].data()` is the character sequence it points to.  The
`int` index is below the length of a vector, so below `2^31 - 1`, whenever `++index` is
reached: the increment never overflows. -/
def create_callback (env : Env) (key value : string_t) (s : Except Fault create_locals) :
    Except Fault create_locals := do
  let l ← s
  let k ← array_get l.keys_strs l.index
  let keys_strs ← array_set l.keys_strs l.index (env.pal_clrstring key k).2
  let kdata ← array_get keys_strs l.index
  let keys ← array_set l.keys l.index (some kdata)
  let v ← array_get l.values_strs l.index
  let values_strs ← array_set l.values_strs l.index (env.pal_clrstring value v).2
  let vdata ← array_get values_strs l.index
  let values ← array_set l.values l.index (some vdata)
  pure { keys_strs := keys_strs, keys := keys, values_strs := values_strs, values := values,
         index := l.index + 1 }

/-- The locals of `create` as mono.cpp 97-102 sets them up. -/
def create_locals.start (propertyCount : Int) : create_locals :=
  { keys_strs := List.replicate propertyCount.toNat [],
    keys := List.replicate propertyCount.toNat none,
    values_strs := List.replicate propertyCount.toNat [],
    values := List.replicate propertyCount.toNat none,
    index := 0 }

/-- The part of `create` that fills the vectors (mono.cpp 97-111): the locals after
`properties.enumerate(callback)`.  The four constructors `std::vector<T>(propertyCount)`
convert the `int` to the unsigned size type; a negative `propertyCount` becomes a size
beyond `max_size()` and the first constructor throws. -/
def create_flatten (env : Env) (properties : mono_property_bag_t) :
    Except Fault create_locals :=
  if properties.count < 0 then .error .exception
  else properties.enumerate (create_callback env) (.ok (create_locals.start properties.count))

/-- The static member `create` (mono.cpp 79-128).  The result is the returned status and the
caller's `inst` afterwards. -/
def create (env : Env) (p : Process) (libmono_path : string_t)
    (exe_path app_domain_friendly_name : c_str) (properties : mono_property_bag_t)
    (inst : Option Mono.mono_t) : Process × Except Fault (hresult_t × Option Mono.mono_t) :=
  match mono_bind env p libmono_path with
  | (p1, .error f) => (p1, .error f)
  | (p1, .ok false) =>
    (p1.record (Call.trace_error "Failed to bind to mono at '%s'" libmono_path),
      .ok (env.CoreClrBindFailure, inst))
  | (p1, .ok true) =>
    match cassert env.NDEBUG (p1.g_mono.isSome && p1.coreclr_initialize.isSome) with
    | .error f => (p1, .error f)
    | .ok _ =>
      let propertyCount := properties.count
      match create_flatten env properties with
      | .error f => (p1, .error f)
      | .ok l =>
        match p1.coreclr_initialize with
        | none => (p1, .error .undefined)
        | some fn =>
          let r := env.mono_initialize_fn p1.calls fn exe_path app_domain_friendly_name
            propertyCount l.keys l.values
          let p2 := p1.record (Call.coreclr_initialize fn exe_path app_domain_friendly_name
            propertyCount l.keys l.values)
          if !env.SUCCEEDED r.hr then (p2, .ok (r.hr, inst))
          else (p2, .ok (env.Success, some (mono_t r.hostHandle r.domainId)))

/-- What `execute_assembly` hands back: status, the out-parameter `exit_code`, the handle. -/
structure execute_assembly_result where
  ret : hresult_t
  exit_code : Option Nat
  self : Mono.mono_t
  deriving DecidableEq, Repr

/-- The member `execute_assembly` (mono.cpp 137-152). -/
def execute_assembly (env : Env) (p : Process) (self : Mono.mono_t) (argc : Int)
    (argv : List c_str) (managed_assembly_path : c_str) (exit_code : Option Nat) :
    Process × Except Fault execute_assembly_result :=
  match cassert env.NDEBUG (p.g_mono.isSome && p.coreclr_execute_assembly.isSome) with
  | .error f => (p, .error f)
  | .ok _ =>
    match p.coreclr_execute_assembly with
    | none => (p, .error .undefined)
    | some fn =>
      let r := env.mono_execute_assembly_fn p.calls fn self._host_handle self._domain_id
        argc argv managed_assembly_path exit_code
      (p.record (Call.coreclr_execute_assembly fn self._host_handle self._domain_id
          argc argv managed_assembly_path exit_code),
        .ok { ret := r.1, exit_code := exit_code.map (fun _ => r.2), self := self })

/-- What `create_delegate` hands back: status, the out-parameter `delegate`, the handle. -/
structure create_delegate_result where
  ret : hresult_t
  delegate : Option Nat
  self : Mono.mono_t
  deriving DecidableEq, Repr

/-- The member `create_delegate` (mono.cpp 154-169); its assertion names
`coreclr_execute_assembly`, its call goes through `coreclr_create_delegate`. -/
def create_delegate (env : Env) (p : Process) (self : Mono.mono_t)
    (entryPointAssemblyName entryPointTypeName entryPointMethodName : c_str)
    (delegate : Option Nat) : Process × Except Fault create_delegate_result :=
  match cassert env.NDEBUG (p.g_mono.isSome && p.coreclr_execute_assembly.isSome) with
  | .error f => (p, .error f)
  | .ok _ =>
    match p.coreclr_create_delegate with
    | none => (p, .error .undefined)
    | some fn =>
      let r := env.mono_create_delegate_fn p.calls fn self._host_handle self._domain_id
        entryPointAssemblyName entryPointTypeName entryPointMethodName delegate
      (p.record (Call.coreclr_create_delegate fn self._host_handle self._domain_id
          entryPointAssemblyName entryPointTypeName entryPointMethodName delegate),
        .ok { ret := r.1, delegate := delegate.map (fun _ => r.2), self := self })

/-- What `shutdown` hands back: status, the out-parameter `latchedExitCode`, the handle. -/
structure shutdown_result where
  ret : hresult_t
  latchedExitCode : Option Int
  self : Mono.mono_t
  deriving DecidableEq, Repr

/-- The member `shutdown` (mono.cpp 171-189). -/
def shutdown (env : Env) (p : Process) (self : Mono.mono_t) (latchedExitCode : Option Int) :
    Process × Except Fault shutdown_result :=
  match cassert env.NDEBUG (p.g_mono.isSome && p.coreclr_shutdown.isSome) with
  | .error f => (p, .error f)
  | .ok _ =>
    if self._is_shutdown then
      (p, .ok { ret := env.Success, latchedExitCode := latchedExitCode.map (fun _ => env.Success),
                self := self })
    else
      let self1 := { self with _is_shutdown := true }
      match p.coreclr_shutdown with
      | none => (p, .error .undefined)
      | some fn =>
        let r := env.mono_shutdown_fn p.calls fn self1._host_handle self1._domain_id
          latchedExitCode
        (p.record (Call.coreclr_shutdown_2 fn self1._host_handle self1._domain_id
            latchedExitCode),
          .ok { ret := r.1, latchedExitCode := latchedExitCode.map (fun _ => r.2),
                self := self1 })

end mono_t

/-! ## Sequences of calls on one handle -/

/-- One call on a handle, with its arguments. -/
inductive handle_op
  | execute_assembly (argc : Int) (argv : List c_str) (managed_assembly_path : c_str)
      (exit_code : Option Nat)
  | create_delegate (entryPointAssemblyName entryPointTypeName entryPointMethodName : c_str)
      (delegate : Option Nat)
  | shutdown (latchedExitCode : Option Int)
  deriving DecidableEq, Repr

namespace mono_t

/-- The process and the handle after one call on the handle. -/
def step (env : Env) (p : Process) (self : Mono.mono_t) :
    handle_op → Process × Except Fault Mono.mono_t
  | .execute_assembly argc argv managed_assembly_path exit_code =>
    match execute_assembly env p self argc argv managed_assembly_path exit_code with
    | (p1, .ok r) => (p1, .ok r.self)
    | (p1, .error f) => (p1, .error f)
  | .create_delegate a t m delegate =>
    match create_delegate env p self a t m delegate with
    | (p1, .ok r) => (p1, .ok r.self)
    | (p1, .error f) => (p1, .error f)
  | .shutdown latchedExitCode =>
    match shutdown env p self latchedExitCode with
    | (p1, .ok r) => (p1, .ok r.self)
    | (p1, .error f) => (p1, .error f)

/-- The process and the handle after each call of a sequence, first call first.  The run ends
with the call that stops the program, if one does. -/
def run (env : Env) (p : Process) (self : Mono.mono_t) :
    List handle_op → List (Process × Except Fault Mono.mono_t)
  | [] => []
  | op :: ops =>
    match step env p self op with
    | (p1, .ok self1) => (p1, .ok self1) :: run env p1 self1 ops
    | (p1, .error f) => [(p1, .error f)]

end mono_t

/-- Whether a recorded call is a call of the shutdown entry point. -/
def Call.is_shutdown_call : Call → Bool
  | .coreclr_shutdown_2 _ _ _ _ => true
  | _ => false

/-- How often the shutdown entry point was called. -/
def shutdown_calls (calls : List Call) : Nat :=
  calls.countP Call.is_shutdown_call

/-- Whether a recorded call is a call of the entry point that starts the runtime. -/
def Call.is_init_call : Call → Bool
  | Call.coreclr_initialize _ _ _ _ _ _ => true
  | _ => false

/-- How often the entry point that starts the runtime was called. -/
def init_calls (calls : List Call) : Nat :=
  calls.countP Call.is_init_call

/-! ## A stand-in for the surroundings

`mockmono` plays the part of the library of `test/mockmono`: it is found in `/opt/mono` and
exports the four entry points.  `mockmono_lacking` is the same library without
`coreclr_shutdown_2`. -/

/-- The symbol table of the stand-in library. -/
def mockmono_symbol (name : String) : Option Nat :=
  if name = "coreclr_initialize" then some 101
  else if name = "coreclr_shutdown_2" then some 102
  else if name = "coreclr_execute_assembly" then some 103
  else if name = "coreclr_create_delegate" then some 104
  else none

/-- A build with assertions on a Unix host with the stand-in library in `/opt/mono`.  Its
shutdown entry point reports the failure status `0x80004005` and the exit code 3. -/
def mockmono : Env :=
  { NDEBUG := false
    Success := 0
    CoreClrBindFailure := -2147450744
    SUCCEEDED := fun hr => decide (0 ≤ hr)
    LIBMONO_NAME := "libmono.so"
    append_path := fun dir name => dir ++ "/" ++ name
    pal_clrstring := fun str _ => (true, str.toList)
    load_library := fun _ path _ =>
      if path = "/opt/mono/libmono.so" then (true, some 4096) else (false, none)
    get_symbol := fun _ library name =>
      if library = some 4096 then mockmono_symbol name else none
    mono_initialize_fn := fun _ _ _ _ _ _ _ => { hr := 0, hostHandle := 77, domainId := 1 }
    mono_shutdown_fn := fun _ _ _ _ _ => (-2147467259, 3)
    mono_execute_assembly_fn := fun _ _ _ _ _ _ _ _ => (0, 42)
    mono_create_delegate_fn := fun _ _ _ _ _ _ _ _ => (0, 8192) }

/-- The stand-in with a library that lacks `coreclr_shutdown_2`, in a build with or without
assertions. -/
def mockmono_lacking (NDEBUG : Bool) : Env :=
  { mockmono with
    NDEBUG := NDEBUG
    get_symbol := fun _ library name =>
      if library = some 4096 ∧ name ≠ "coreclr_shutdown_2" then mockmono_symbol name
      else none }

/-- The stand-in in a build without assertions. -/
def mockmono_release : Env :=
  { mockmono with NDEBUG := true }

/-- The process after `mono_bind` found the stand-in library. -/
def mockmono_bound : Process :=
  { g_mono := some 4096
    coreclr_shutdown := some 102
    coreclr_initialize := some 101
    coreclr_execute_assembly := some 103
    coreclr_create_delegate := some 104
    calls :=
      [ Call.load_library "/opt/mono/libmono.so",
        Call.get_symbol (some 4096) "coreclr_initialize",
        Call.get_symbol (some 4096) "coreclr_shutdown_2",
        Call.get_symbol (some 4096) "coreclr_execute_assembly",
        Call.get_symbol (some 4096) "coreclr_create_delegate" ] }

/-! ## Facts about the conversion to `int` -/

theorem static_cast_int_size_t_of_lt (n : Nat) (h : n < 2147483648) :
    static_cast_int_size_t n = (n : Int) := by
  have hmod : n % 4294967296 = n := Nat.mod_eq_of_lt (by omega)
  unfold static_cast_int_size_t
  rw [hmod, if_pos h]
  rfl

theorem count_of_lt (bag : mono_property_bag_t)
    (h : unordered_map.size bag._properties < 2147483648) :
    bag.count = (unordered_map.size bag._properties : Int) :=
  static_cast_int_size_t_of_lt _ h

/-! ## Facts about the container model -/

namespace unordered_map

theorem find_key {m : List (string_t × string_t)} {k : string_t} {kv : string_t × string_t}
    (h : find m k = some kv) : kv.1 = k := by
  induction m with
  | nil => simp [find] at h
  | cons a m ih =>
    unfold find at h
    split at h
    · cases h; assumption
    · exact ih h

theorem find_mem {m : List (string_t × string_t)} {k : string_t} {kv : string_t × string_t}
    (h : find m k = some kv) : kv ∈ m := by
  induction m with
  | nil => simp [find] at h
  | cons a m ih =>
    unfold find at h
    split at h
    · cases h; exact List.mem_cons_self _ _
    · exact List.mem_cons_of_mem _ (ih h)

theorem find_eq_none_iff (m : List (string_t × string_t)) (k : string_t) :
    find m k = none ↔ k ∉ m.map Prod.fst := by
  induction m with
  | nil => simp [find]
  | cons a m ih =>
    unfold find
    by_cases h : a.1 = k
    · simp [h]
    · simp only [h, if_false, List.map_cons, List.mem_cons, not_or]
      constructor
      · intro hf; exact ⟨fun e => h e.symm, ih.mp hf⟩
      · intro hf; exact ih.mpr hf.2

theorem find_isSome_iff (m : List (string_t × string_t)) (k : string_t) :
    (find m k).isSome = true ↔ k ∈ m.map Prod.fst := by
  rw [← not_iff_not, ← find_eq_none_iff]
  cases find m k <;> simp

theorem find_emplace_self (m : List (string_t × string_t)) (k v : string_t)
    (h : find m k = none) : find (emplace m k v) k = some (k, v) := by
  induction m with
  | nil => simp [emplace, find]
  | cons a m ih =>
    unfold find at h
    by_cases e : a.1 = k
    · simp [e] at h
    · simp only [e, if_false] at h
      simp [emplace, find, e, ih h]

theorem find_emplace_ne (m : List (string_t × string_t)) (k v j : string_t) (hj : j ≠ k) :
    find (emplace m k v) j = find m j := by
  induction m with
  | nil => simp [emplace, find, Ne.symm hj]
  | cons a m ih =>
    by_cases e : a.1 = k
    · simp only [emplace, if_pos e]
    · simp only [emplace, if_neg e, find, ih]

theorem find_assign_self (m : List (string_t × string_t)) (k v : string_t) :
    find (assign m k v) k = some (k, v) := by
  induction m with
  | nil => simp [assign, find]
  | cons a m ih =>
    by_cases e : a.1 = k
    · simp [assign, find, e]
    · simp [assign, find, e, ih]

theorem find_assign_ne (m : List (string_t × string_t)) (k v j : string_t) (hj : j ≠ k) :
    find (assign m k v) j = find m j := by
  induction m with
  | nil => simp [assign, find, Ne.symm hj]
  | cons a m ih =>
    by_cases e : a.1 = k
    · have e2 : ¬ a.1 = j := fun h => hj (h.symm.trans e)
      simp only [assign, if_pos e, find, if_neg e2]
    · simp only [assign, if_neg e, find, ih]

theorem find_erase_ne (m : List (string_t × string_t)) (k j : string_t) (hj : j ≠ k) :
    find (erase m k) j = find m j := by
  induction m with
  | nil => simp [erase, find]
  | cons a m ih =>
    by_cases e : a.1 = k
    · have e2 : ¬ a.1 = j := fun h => hj (h.symm.trans e)
      simp only [erase, if_pos e, find, if_neg e2]
    · simp only [erase, if_neg e, find, ih]

theorem length_emplace (m : List (string_t × string_t)) (k v : string_t)
    (h : find m k = none) : (emplace m k v).length = m.length + 1 := by
  induction m with
  | nil => simp [emplace]
  | cons a m ih =>
    unfold find at h
    by_cases e : a.1 = k
    · simp [e] at h
    · simp only [e, if_false] at h
      simp [emplace, e, ih h]

theorem length_assign (m : List (string_t × string_t)) (k v : string_t)
    (h : (find m k).isSome = true) : (assign m k v).length = m.length := by
  induction m with
  | nil => simp [find] at h
  | cons a m ih =>
    unfold find at h
    by_cases e : a.1 = k
    · simp [assign, e]
    · simp only [e, if_false] at h
      simp [assign, e, ih h]

theorem keys_emplace (m : List (string_t × string_t)) (k v : string_t)
    (h : find m k = none) : (emplace m k v).map Prod.fst = m.map Prod.fst ++ [k] := by
  induction m with
  | nil => simp [emplace]
  | cons a m ih =>
    unfold find at h
    by_cases e : a.1 = k
    · simp [e] at h
    · simp only [e, if_false] at h
      simp [emplace, e, ih h]

theorem keys_assign (m : List (string_t × string_t)) (k v : string_t)
    (h : (find m k).isSome = true) : (assign m k v).map Prod.fst = m.map Prod.fst := by
  induction m with
  | nil => simp [find] at h
  | cons a m ih =>
    unfold find at h
    by_cases e : a.1 = k
    · simp [assign, e]
    · simp only [e, if_false] at h
      simp [assign, e, ih h]

theorem keys_erase_sublist (m : List (string_t × string_t)) (k : string_t) :
    ((erase m k).map Prod.fst).Sublist (m.map Prod.fst) := by
  induction m with
  | nil => simp [erase]
  | cons a m ih =>
    by_cases e : a.1 = k
    · simp [erase, e]
    · simp only [erase, e, if_false, List.map_cons]
      exact ih.cons₂ _

end unordered_map

/-! ## The property bag -/

namespace mono_property_bag_t

theorem try_get_some (NDEBUG : Bool) (bag : Mono.mono_property_bag_t) (k : string_t)
    (slot : Option string_t) :
    try_get NDEBUG bag (some k) (some slot) =
      match unordered_map.find bag._properties k with
      | none => .ok { ret := false, value := some slot, self := bag }
      | some kv => .ok { ret := true, value := some (some kv.2), self := bag } := by
  cases NDEBUG <;> cases h : unordered_map.find bag._properties k <;>
    simp [try_get, cassert, h, bind, Except.bind, pure, Except.pure]

theorem has_eq (bag : Mono.mono_property_bag_t) (k : string_t) :
    bag.has k = (unordered_map.find bag._properties k).isSome := by
  unfold has
  rw [try_get_some]
  cases unordered_map.find bag._properties k <;> rfl

theorem has_iff_mem (bag : Mono.mono_property_bag_t) (k : string_t) :
    bag.has k = true ↔ k ∈ bag._properties.map Prod.fst := by
  rw [has_eq, unordered_map.find_isSome_iff]

theorem find_add_self (bag : Mono.mono_property_bag_t) (k v : string_t) :
    unordered_map.find (bag.add (some k) (some v)).2._properties k = some (k, v) := by
  cases h : unordered_map.find bag._properties k with
  | none =>
    simp only [add, h]
    exact unordered_map.find_emplace_self _ _ _ h
  | some kv =>
    simp only [add, h]
    exact unordered_map.find_assign_self _ _ _

theorem find_add_ne (bag : Mono.mono_property_bag_t) (key value : Option string_t)
    (j : string_t) (hj : key ≠ some j) :
    unordered_map.find (bag.add key value).2._properties j =
      unordered_map.find bag._properties j := by
  cases key with
  | none => rfl
  | some k =>
    cases value with
    | none => rfl
    | some v =>
      have hjk : j ≠ k := fun e => hj (by rw [e])
      cases h : unordered_map.find bag._properties k with
      | none =>
        simp only [add, h]
        exact unordered_map.find_emplace_ne _ _ _ _ hjk
      | some kv =>
        simp only [add, h]
        exact unordered_map.find_assign_ne _ _ _ _ hjk

theorem find_remove_ne (bag : Mono.mono_property_bag_t) (key : Option string_t)
    (j : string_t) (hj : key ≠ some j) :
    unordered_map.find (bag.remove key)._properties j =
      unordered_map.find bag._properties j := by
  cases key with
  | none => rfl
  | some k =>
    have hjk : j ≠ k := fun e => hj (by rw [e])
    cases h : unordered_map.find bag._properties k with
    | none => simp only [remove, h]
    | some kv =>
      simp only [remove, h]
      exact unordered_map.find_erase_ne _ _ _ hjk

theorem find_apply_ne (bag : Mono.mono_property_bag_t) (op : bag_op) (j : string_t)
    (hj : op.key ≠ some j) :
    unordered_map.find (bag.apply op)._properties j =
      unordered_map.find bag._properties j := by
  cases op with
  | add key value => exact find_add_ne bag key value j hj
  | remove key => exact find_remove_ne bag key j hj

theorem find_apply_all_ne (ops : List bag_op) (bag : Mono.mono_property_bag_t) (j : string_t)
    (hj : ∀ op ∈ ops, op.key ≠ some j) :
    unordered_map.find (bag.apply_all ops)._properties j =
      unordered_map.find bag._properties j := by
  induction ops generalizing bag with
  | nil => rfl
  | cons op ops ih =>
    have h1 := ih (bag.apply op) (fun o ho => hj o (List.mem_cons_of_mem _ ho))
    have h2 := find_apply_ne bag op j (hj op (List.mem_cons_self _ _))
    simpa [apply_all, List.foldl_cons] using h1.trans h2

theorem apply_all_append (bag : Mono.mono_property_bag_t) (xs ys : List bag_op) :
    bag.apply_all (xs ++ ys) = (bag.apply_all xs).apply_all ys := by
  simp [apply_all, List.foldl_append]

theorem apply_all_cons (bag : Mono.mono_property_bag_t) (op : bag_op) (ops : List bag_op) :
    bag.apply_all (op :: ops) = (bag.apply op).apply_all ops := rfl

/-- The keys of a bag are pairwise different after every call. -/
theorem nodup_keys_apply (bag : Mono.mono_property_bag_t) (op : bag_op)
    (h : (bag._properties.map Prod.fst).Nodup) :
    ((bag.apply op)._properties.map Prod.fst).Nodup := by
  cases op with
  | add key value =>
    cases key with
    | none => exact h
    | some k =>
      cases value with
      | none => exact h
      | some v =>
        simp only [apply, add]
        cases hf : unordered_map.find bag._properties k with
        | none =>
          simp only [unordered_map.keys_emplace _ _ _ hf]
          refine List.Nodup.append h (List.nodup_singleton k) ?_
          intro x hx hx2
          rw [List.mem_singleton] at hx2
          subst hx2
          exact (unordered_map.find_eq_none_iff _ _).mp hf hx
        | some kv =>
          simp only [unordered_map.keys_assign _ _ _ (by rw [hf]; rfl)]
          exact h
  | remove key =>
    cases key with
    | none => exact h
    | some k =>
      simp only [apply, remove]
      cases hf : unordered_map.find bag._properties k with
      | none => exact h
      | some kv => exact h.sublist (unordered_map.keys_erase_sublist _ _)

theorem nodup_keys_apply_all (ops : List bag_op) (bag : Mono.mono_property_bag_t)
    (h : (bag._properties.map Prod.fst).Nodup) :
    ((bag.apply_all ops)._properties.map Prod.fst).Nodup := by
  induction ops generalizing bag with
  | nil => exact h
  | cons op ops ih => exact ih (bag.apply op) (nodup_keys_apply bag op h)

theorem nodup_keys_reach (ops : List bag_op) :
    ((reach ops)._properties.map Prod.fst).Nodup :=
  nodup_keys_apply_all ops _ (by simp [mono_property_bag_t, unordered_map.reserve])

theorem mem_iff_find_of_nodup (m : List (string_t × string_t))
    (h : (m.map Prod.fst).Nodup) (k v : string_t) :
    (k, v) ∈ m ↔ unordered_map.find m k = some (k, v) := by
  constructor
  · intro hm
    induction m with
    | nil => simp at hm
    | cons a m ih =>
      rw [List.map_cons, List.nodup_cons] at h
      rcases List.mem_cons.mp hm with e | hm2
      · subst e; simp [unordered_map.find]
      · have hne : ¬ a.1 = k := by
          intro e
          apply h.1
          rw [e]
          exact List.mem_map.mpr ⟨(k, v), hm2, rfl⟩
        simp only [unordered_map.find, if_neg hne]
        exact ih h.2 hm2
  · exact unordered_map.find_mem

end mono_property_bag_t

/-! ## Facts about calls on a handle -/

namespace mono_t

theorem shutdown_calls_record (p : Process) (c : Call) :
    shutdown_calls (p.record c).calls =
      shutdown_calls p.calls + (if c.is_shutdown_call = true then 1 else 0) := by
  simp [shutdown_calls, Process.record, List.countP_append, List.countP_cons]

/-- A call on a handle leaves the binder state of the process as it is. -/
theorem step_globals (env : Env) (p : Process) (self : Mono.mono_t) (op : handle_op) :
    (step env p self op).1.g_mono = p.g_mono ∧
    (step env p self op).1.coreclr_shutdown = p.coreclr_shutdown ∧
    Process.coreclr_initialize (step env p self op).1 = p.coreclr_initialize ∧
    (step env p self op).1.coreclr_execute_assembly = p.coreclr_execute_assembly ∧
    (step env p self op).1.coreclr_create_delegate = p.coreclr_create_delegate := by
  cases op with
  | execute_assembly argc argv path exit_code =>
    cases hN : env.NDEBUG <;> cases hg : p.g_mono <;>
      cases hs : p.coreclr_execute_assembly <;>
      simp [step, execute_assembly, cassert, hN, hg, hs, Process.record]
  | create_delegate a t m delegate =>
    cases hN : env.NDEBUG <;> cases hg : p.g_mono <;>
      cases hs : p.coreclr_execute_assembly <;> cases hd : p.coreclr_create_delegate <;>
      simp [step, create_delegate, cassert, hN, hg, hs, hd, Process.record]
  | shutdown latchedExitCode =>
    cases hN : env.NDEBUG <;> cases hg : p.g_mono <;>
      cases hs : p.coreclr_shutdown <;> cases hf : self._is_shutdown <;>
      simp [step, shutdown, cassert, hN, hg, hs, hf, Process.record]

/-- A call on a handle never clears the shutdown flag. -/
theorem step_flag (env : Env) (p : Process) (self : Mono.mono_t) (op : handle_op)
    (p1 : Process) (self1 : Mono.mono_t) (h : step env p self op = (p1, .ok self1))
    (hf : self._is_shutdown = true) : self1._is_shutdown = true := by
  cases op with
  | execute_assembly argc argv path exit_code =>
    cases hN : env.NDEBUG <;> cases hg : p.g_mono <;>
      cases hs : p.coreclr_execute_assembly <;>
      simp [step, execute_assembly, cassert, hN, hg, hs, Process.record] at h <;>
      (rw [← h.2]; exact hf)
  | create_delegate a t m delegate =>
    cases hN : env.NDEBUG <;> cases hg : p.g_mono <;>
      cases hs : p.coreclr_execute_assembly <;> cases hd : p.coreclr_create_delegate <;>
      simp [step, create_delegate, cassert, hN, hg, hs, hd, Process.record] at h <;>
      (rw [← h.2]; exact hf)
  | shutdown latchedExitCode =>
    cases hN : env.NDEBUG <;> cases hg : p.g_mono <;>
      cases hs : p.coreclr_shutdown <;>
      simp [step, shutdown, cassert, hN, hg, hs, hf, Process.record] at h <;>
      (rw [← h.2]; exact hf)

/-- A call on a handle calls the shutdown entry point at most once, and only when the
shutdown flag is clear; if it does, the flag is set afterwards. -/
theorem step_budget (env : Env) (p : Process) (self : Mono.mono_t) (op : handle_op) :
    shutdown_calls (step env p self op).1.calls +
        (match (step env p self op).2 with
          | .ok self1 => if self1._is_shutdown = true then 0 else 1
          | .error _ => 0) ≤
      shutdown_calls p.calls + (if self._is_shutdown = true then 0 else 1) := by
  cases op with
  | execute_assembly argc argv path exit_code =>
    cases hN : env.NDEBUG <;> cases hg : p.g_mono <;>
      cases hs : p.coreclr_execute_assembly <;>
      simp [step, execute_assembly, cassert, hN, hg, hs, shutdown_calls_record,
        Call.is_shutdown_call]
  | create_delegate a t m delegate =>
    cases hN : env.NDEBUG <;> cases hg : p.g_mono <;>
      cases hs : p.coreclr_execute_assembly <;> cases hd : p.coreclr_create_delegate <;>
      simp [step, create_delegate, cassert, hN, hg, hs, hd, shutdown_calls_record,
        Call.is_shutdown_call]
  | shutdown latchedExitCode =>
    cases hN : env.NDEBUG <;> cases hg : p.g_mono <;>
      cases hs : p.coreclr_shutdown <;> cases hf : self._is_shutdown <;>
      simp [step, shutdown, cassert, hN, hg, hs, hf, shutdown_calls_record,
        Call.is_shutdown_call]

theorem run_cons (env : Env) (p : Process) (self : Mono.mono_t) (op : handle_op)
    (ops : List handle_op) :
    run env p self (op :: ops) =
      match step env p self op with
      | (p1, .ok self1) => (p1, .ok self1) :: run env p1 self1 ops
      | (p1, .error f) => [(p1, .error f)] := rfl

/-- Along a run the number of calls of the shutdown entry point stays within the budget of
the handle the run started with: one while its flag is clear, none once it is set. -/
theorem run_budget (env : Env) (ops : List handle_op) (p : Process) (self : Mono.mono_t) :
    ∀ x ∈ run env p self ops,
      shutdown_calls x.1.calls ≤
        shutdown_calls p.calls + (if self._is_shutdown = true then 0 else 1) := by
  induction ops generalizing p self with
  | nil => intro x hx; simp [run] at hx
  | cons op ops ih =>
    intro x hx
    have hb := step_budget env p self op
    rw [run_cons] at hx
    rcases hstep : step env p self op with ⟨p1, r⟩
    rw [hstep] at hx hb
    cases r with
    | error f =>
      simp only [List.mem_singleton] at hx
      subst hx
      simpa using hb
    | ok self1 =>
      simp only [List.mem_cons] at hx
      rcases hx with hx | hx
      · subst hx
        simp only at hb ⊢
        omega
      · have := ih p1 self1 x hx
        simp only at hb
        omega

/-- Once the flag of the handle is set, it is set after every later call of the run. -/
theorem run_flag (env : Env) (ops : List handle_op) (p : Process) (self : Mono.mono_t)
    (hf : self._is_shutdown = true) :
    ∀ q later, (q, Except.ok later) ∈ run env p self ops → later._is_shutdown = true := by
  induction ops generalizing p self with
  | nil => intro q later hx; simp [run] at hx
  | cons op ops ih =>
    intro q later hx
    rw [run_cons] at hx
    rcases hstep : step env p self op with ⟨p1, r⟩
    rw [hstep] at hx
    cases r with
    | error f => simp at hx
    | ok self1 =>
      have hf1 := step_flag env p self op p1 self1 hstep hf
      simp only [List.mem_cons, Prod.mk.injEq, Except.ok.injEq] at hx
      rcases hx with hx | hx
      · rw [hx.2]; exact hf1
      · exact ih p1 self1 hf1 q later hx

/-- The binder state of the process is the same at every point of a run. -/
theorem run_globals (env : Env) (ops : List handle_op) (p : Process) (self : Mono.mono_t) :
    ∀ x ∈ run env p self ops,
      x.1.g_mono = p.g_mono ∧ x.1.coreclr_shutdown = p.coreclr_shutdown := by
  induction ops generalizing p self with
  | nil => intro x hx; simp [run] at hx
  | cons op ops ih =>
    intro x hx
    have hg := step_globals env p self op
    rw [run_cons] at hx
    rcases hstep : step env p self op with ⟨p1, r⟩
    rw [hstep] at hx hg
    cases r with
    | error f =>
      simp only [List.mem_singleton] at hx
      subst hx
      exact ⟨hg.1, hg.2.1⟩
    | ok self1 =>
      simp only [List.mem_cons] at hx
      rcases hx with hx | hx
      · subst hx
        exact ⟨hg.1, hg.2.1⟩
      · have := ih p1 self1 x hx
        exact ⟨this.1.trans hg.1, this.2.trans hg.2.1⟩

/-- What `shutdown` does on a handle whose flag is clear, in a process with the library
loaded and the shutdown entry point resolved. -/
theorem shutdown_first (env : Env) (p : Process) (self : Mono.mono_t) (fn : Nat)
    (latchedExitCode : Option Int) (hlib : p.g_mono.isSome = true)
    (hfn : p.coreclr_shutdown = some fn) (hfirst : self._is_shutdown = false) :
    shutdown env p self latchedExitCode =
      (p.record (Call.coreclr_shutdown_2 fn self._host_handle self._domain_id latchedExitCode),
       .ok { ret := (env.mono_shutdown_fn p.calls fn self._host_handle self._domain_id
                      latchedExitCode).1,
             latchedExitCode := latchedExitCode.map (fun _ =>
               (env.mono_shutdown_fn p.calls fn self._host_handle self._domain_id
                 latchedExitCode).2),
             self := { self with _is_shutdown := true } }) := by
  cases hN : env.NDEBUG <;> simp [shutdown, cassert, hN, hlib, hfn, hfirst]

/-- What `shutdown` does on a handle whose flag is set. -/
theorem shutdown_again (env : Env) (p : Process) (self : Mono.mono_t) (fn : Nat)
    (latchedExitCode : Option Int) (hlib : p.g_mono.isSome = true)
    (hfn : p.coreclr_shutdown = some fn) (hset : self._is_shutdown = true) :
    shutdown env p self latchedExitCode =
      (p, .ok { ret := env.Success,
                latchedExitCode := latchedExitCode.map (fun _ => env.Success),
                self := self }) := by
  cases hN : env.NDEBUG <;> simp [shutdown, cassert, hN, hlib, hfn, hset]

end mono_t

/-! ## Facts about `mono_bind` and `create` -/

theorem init_calls_record (p : Process) (c : Call) :
    init_calls (p.record c).calls = init_calls p.calls + (if c.is_init_call = true then 1 else 0) := by
  simp [init_calls, Process.record, List.countP_append, List.countP_cons]

/-- The binder when `load_library` returns false: it records that one call, stores what the
loader left in `g_mono`, and returns false. -/
theorem mono_bind_load_failure (env : Env) (p : Process) (libmono_path : string_t)
    (hentry : env.NDEBUG = true ∨ p.g_mono = none)
    (hload : (env.load_library p.calls (env.append_path libmono_path env.LIBMONO_NAME)
      p.g_mono).1 = false) :
    mono_bind env p libmono_path =
      ({ p.record (Call.load_library (env.append_path libmono_path env.LIBMONO_NAME)) with
          g_mono := (env.load_library p.calls (env.append_path libmono_path env.LIBMONO_NAME)
            p.g_mono).2 },
        .ok false) := by
  have hc : cassert env.NDEBUG p.g_mono.isNone = .ok () := by
    rcases hentry with h | h <;> simp [cassert, h]
  simp [mono_bind, hc, hload]

/-- The binder when `load_library` returns true: it never returns false; what it leaves in the
four pointers decides between its assertion and `true`. -/
theorem mono_bind_loaded (env : Env) (p : Process) (libmono_path : string_t)
    (hentry : env.NDEBUG = true ∨ p.g_mono = none)
    (hload : (env.load_library p.calls (env.append_path libmono_path env.LIBMONO_NAME)
      p.g_mono).1 = true) :
    (mono_bind env p libmono_path).2 =
      cassert env.NDEBUG
        (Option.isSome (Process.coreclr_initialize (mono_bind env p libmono_path).1) &&
          (mono_bind env p libmono_path).1.coreclr_shutdown.isSome &&
          (mono_bind env p libmono_path).1.coreclr_execute_assembly.isSome &&
          (mono_bind env p libmono_path).1.coreclr_create_delegate.isSome) >>=
        fun _ => .ok true := by
  have hc : cassert env.NDEBUG p.g_mono.isNone = .ok () := by
    rcases hentry with h | h <;> simp [cassert, h]
  simp only [mono_bind, hc, hload, Bool.not_true, Bool.false_eq_true, if_false]
  split <;> rename_i h <;> simp [h, bind, Except.bind]

/-- The binder calls no entry point of the library. -/
theorem mono_bind_init_calls (env : Env) (p : Process) (libmono_path : string_t) :
    init_calls (mono_bind env p libmono_path).1.calls = init_calls p.calls := by
  unfold mono_bind
  split
  · rfl
  · dsimp only
    split
    · simp [init_calls_record, Call.is_init_call]
    · split <;> simp [init_calls_record, Call.is_init_call]

namespace mono_t

theorem array_get_ok {α : Type} (a : List α) (i : Int) (h0 : 0 ≤ i)
    (h1 : i.toNat < a.length) : array_get a i = .ok (a.get ⟨i.toNat, h1⟩) := by
  unfold array_get
  rw [if_pos h0, List.get?_eq_get h1]

theorem array_set_ok {α : Type} (a : List α) (i : Int) (x : α) (h0 : 0 ≤ i)
    (h1 : i.toNat < a.length) : array_set a i x = .ok (a.set i.toNat x) := by
  unfold array_set
  rw [if_pos ⟨h0, h1⟩]

/-- One call of the callback of `create` with the index inside the four vectors: it returns,
moves the index on by one and keeps the lengths. -/
theorem create_callback_ok (env : Env) (key value : string_t) (l : create_locals) (n : Nat)
    (hks : l.keys_strs.length = n) (hk : l.keys.length = n)
    (hvs : l.values_strs.length = n) (hv : l.values.length = n)
    (h0 : 0 ≤ l.index) (h1 : l.index.toNat < n) :
    ∃ l2 : create_locals, create_callback env key value (.ok l) = .ok l2 ∧
      l2.index = l.index + 1 ∧ l2.keys_strs.length = n ∧ l2.keys.length = n ∧
      l2.values_strs.length = n ∧ l2.values.length = n := by
  subst hks
  unfold create_callback
  simp only [bind, Except.bind, pure, Except.pure]
  rw [array_get_ok _ _ h0 h1]
  simp only
  rw [array_set_ok _ _ _ h0 h1]
  simp only
  rw [array_get_ok _ _ h0 (by rw [List.length_set]; exact h1)]
  simp only
  rw [array_set_ok _ _ _ h0 (by rw [hk]; exact h1)]
  simp only
  rw [array_get_ok _ _ h0 (by rw [hvs]; exact h1)]
  simp only
  rw [array_set_ok _ _ _ h0 (by rw [hvs]; exact h1)]
  simp only
  rw [array_get_ok _ _ h0 (by rw [List.length_set, hvs]; exact h1)]
  simp only
  rw [array_set_ok _ _ _ h0 (by rw [hv]; exact h1)]
  exact ⟨_, rfl, rfl, by simp, by simp [hk], by simp [hvs], by simp [hv]⟩

/-- The loop of `enumerate` over entries that still fit behind the index. -/
theorem create_fold_ok (env : Env) (m : List (string_t × string_t)) (l : create_locals)
    (n : Nat) (hks : l.keys_strs.length = n) (hk : l.keys.length = n)
    (hvs : l.values_strs.length = n) (hv : l.values.length = n)
    (h0 : 0 ≤ l.index) (h1 : l.index.toNat + m.length ≤ n) :
    ∃ l2 : create_locals,
      m.foldl (fun s kv => create_callback env kv.1 kv.2 s) (.ok l) = .ok l2 ∧
      l2.index = l.index + m.length ∧ l2.keys_strs.length = n ∧ l2.keys.length = n ∧
      l2.values_strs.length = n ∧ l2.values.length = n := by
  induction m generalizing l with
  | nil => exact ⟨l, rfl, by simp, hks, hk, hvs, hv⟩
  | cons kv m ih =>
    simp only [List.length_cons] at h1
    obtain ⟨l1, e1, i1, a1, b1, c1, d1⟩ :=
      create_callback_ok env kv.1 kv.2 l n hks hk hvs hv h0 (by omega)
    obtain ⟨l2, e2, i2, a2, b2, c2, d2⟩ :=
      ih l1 a1 b1 c1 d1 (by omega) (by rw [i1]; omega)
    refine ⟨l2, ?_, ?_, a2, b2, c2, d2⟩
    · rw [List.foldl_cons, e1, e2]
    · rw [i2, i1, List.length_cons]; push_cast; ring

/-- For a bag of fewer than `2^31` entries the filling of the vectors in `create` returns,
with the index at `count()` and four vectors of `count()` entries. -/
theorem create_flatten_ok (env : Env) (properties : mono_property_bag_t)
    (hsize : unordered_map.size properties._properties < 2147483648) :
    ∃ l : create_locals, create_flatten env properties = .ok l ∧
      l.index = properties.count ∧ l.keys_strs.length = properties.count.toNat ∧
      l.keys.length = properties.count.toNat ∧
      l.values_strs.length = properties.count.toNat ∧
      l.values.length = properties.count.toNat := by
  have hcount := count_of_lt properties hsize
  have hn : properties.count.toNat = properties._properties.length := by
    rw [hcount]; simp [unordered_map.size]
  have hnonneg : ¬ properties.count < 0 := by rw [hcount]; omega
  obtain ⟨l, e, i, a, b, c, d⟩ := create_fold_ok env properties._properties
    (create_locals.start properties.count) properties._properties.length
    (by simp [create_locals.start, hn]) (by simp [create_locals.start, hn])
    (by simp [create_locals.start, hn]) (by simp [create_locals.start, hn])
    (by simp [create_locals.start]) (by simp [create_locals.start])
  refine ⟨l, ?_, ?_, ?_, ?_, ?_, ?_⟩
  · unfold create_flatten
    rw [if_neg hnonneg]
    exact e
  · rw [i, hcount]; simp [create_locals.start, unordered_map.size]
  all_goals rw [hn]; assumption

end mono_t

/-! ## Claims about the property bag -/

namespace mono_property_bag_t

/-- C6: last write wins.  Start from any bag and make any calls `before`, then `add(k, v)`,
then any calls `after` none of which is given the key `k` (further adds, with or without null
arguments, and removes of other keys).  Then `try_get(k, &slot)` returns true and leaves `v`
in the slot, whatever the slot held and however many adds on `k` or on other keys came
earlier; the bag is as it was before the `try_get`. -/
theorem try_get_last_write_wins (NDEBUG : Bool) (bag : Mono.mono_property_bag_t)
    (before after : List bag_op) (k v : string_t) (slot : Option string_t)
    (hafter : ∀ op ∈ after, op.key ≠ some k) :
    try_get NDEBUG (bag.apply_all (before ++ bag_op.add (some k) (some v) :: after))
        (some k) (some slot) =
      .ok { ret := true, value := some (some v),
            self := bag.apply_all (before ++ bag_op.add (some k) (some v) :: after) } := by
  have hfind : unordered_map.find
      (bag.apply_all (before ++ bag_op.add (some k) (some v) :: after))._properties k =
      some (k, v) := by
    rw [apply_all_append, apply_all_cons, find_apply_all_ne after _ k hafter]
    exact find_add_self _ k v
  rw [try_get_some, hfind]

/-- C6 at a concrete input: `add("A","1")`, `add("B","x")`, `add("A","2")`, `add("B","y")` on
a new bag, then `try_get("A")` yields `"2"`. -/
theorem try_get_last_write_wins_witness :
    (∀ op ∈ [bag_op.add (some "B") (some "y")], op.key ≠ some "A") ∧
    try_get false
        (reach
          ([bag_op.add (some "A") (some "1"), bag_op.add (some "B") (some "x")] ++
            bag_op.add (some "A") (some "2") :: [bag_op.add (some "B") (some "y")]))
        (some "A") (some none) =
      .ok { ret := true, value := some (some "2"),
            self := { _properties := [("A", "2"), ("B", "y")] } } :=
  ⟨by decide,
   try_get_last_write_wins false mono_property_bag_t
     [bag_op.add (some "A") (some "1"), bag_op.add (some "B") (some "x")]
     [bag_op.add (some "B") (some "y")] "A" "2" none (by decide)⟩

/-- C7, as the code has it: for a non-null key `k` and a non-null value `v`: when `k` is
present, `add(k, v)` returns false, the bag keeps its size and `count()` stays; when `k` is
absent, `add(k, v)` returns true and the bag has exactly one entry more, and `count()`, the
size converted to `int`, grows by exactly one whenever the new size is below `2^31`; `add`
returns true exactly when the key was absent. -/
theorem add_reports_new_key (bag : Mono.mono_property_bag_t) (k v : string_t) :
    (bag.has k = true →
      (bag.add (some k) (some v)).1 = false ∧
      unordered_map.size (bag.add (some k) (some v)).2._properties =
        unordered_map.size bag._properties ∧
      (bag.add (some k) (some v)).2.count = bag.count) ∧
    (bag.has k = false →
      (bag.add (some k) (some v)).1 = true ∧
      unordered_map.size (bag.add (some k) (some v)).2._properties =
        unordered_map.size bag._properties + 1 ∧
      (unordered_map.size bag._properties + 1 < 2147483648 →
        (bag.add (some k) (some v)).2.count = bag.count + 1)) ∧
    ((bag.add (some k) (some v)).1 = true ↔ bag.has k = false) := by
  rw [has_eq]
  cases h : unordered_map.find bag._properties k with
  | none =>
    have hlen := unordered_map.length_emplace bag._properties k v h
    have hadd : bag.add (some k) (some v) =
        (true, { _properties := unordered_map.emplace bag._properties k v }) := by
      simp only [add, h]
    rw [hadd]
    refine ⟨fun e => by simp at e, fun _ => ⟨rfl, hlen, fun hs => ?_⟩, by simp⟩
    rw [count_of_lt bag (by omega), count_of_lt _ (by rw [unordered_map.size, hlen]; exact hs)]
    simp only [unordered_map.size, hlen]
    push_cast
    rfl
  | some kv =>
    have hlen := unordered_map.length_assign bag._properties k v (by rw [h]; rfl)
    have hadd : bag.add (some k) (some v) =
        (false, { _properties := unordered_map.assign bag._properties k v }) := by
      simp only [add, h]
    rw [hadd]
    refine ⟨fun _ => ⟨rfl, hlen, ?_⟩, fun e => by simp at e, by simp⟩
    simp only [count, unordered_map.size, hlen]

/-- C8: `add` given a null key or a null value (or both) returns false and hands back the
bag it was given, so `count()` and every `try_get` answer as before; the `common_property`
overload does the same for a null value and a member other than the sentinel. -/
theorem add_null_rejected (NDEBUG : Bool) (bag : Mono.mono_property_bag_t)
    (key value : Option string_t) (p : common_property)
    (hnull : key = none ∨ value = none) (hp : p ≠ common_property.Last) :
    (bag.add key value).1 = false ∧ (bag.add key value).2 = bag ∧
    (bag.add key value).2.count = bag.count ∧
    (∀ (k : Option string_t) (slot : Option (Option string_t)),
      try_get NDEBUG (bag.add key value).2 k slot = try_get NDEBUG bag k slot) ∧
    add_common_property NDEBUG bag p none = .ok (false, bag) := by
  have h1 : bag.add key value = (false, bag) := by
    rcases hnull with h | h
    · subst h; rfl
    · subst h; cases key <;> rfl
  refine ⟨by rw [h1], by rw [h1], by rw [h1], fun k slot => by rw [h1], ?_⟩
  cases NDEBUG <;> cases p <;> first | exact absurd rfl hp | rfl

/-- C8 at a concrete input: a null value for the key `"A"` and for `AppPaths`, on the bag
holding `("A","1")`. -/
theorem add_null_rejected_witness :
    ((some "A" : Option string_t) = none ∨ (none : Option string_t) = none) ∧
    common_property.AppPaths ≠ common_property.Last ∧
    (add { _properties := [("A", "1")] } (some "A") none).1 = false ∧
    (add { _properties := [("A", "1")] } (some "A") none).2 = { _properties := [("A", "1")] } ∧
    add_common_property false { _properties := [("A", "1")] } common_property.AppPaths none =
      .ok (false, { _properties := [("A", "1")] }) :=
  have h := add_null_rejected false { _properties := [("A", "1")] } (some "A") none
    common_property.AppPaths (Or.inr rfl) (by decide)
  ⟨Or.inr rfl, by decide, h.1, h.2.1, h.2.2.2.2⟩

/-- The keys `try_get` finds on a reachable bag are as many as the bag has entries. -/
theorem ncard_has_reach (ops : List bag_op) :
    Set.ncard {k : string_t | (reach ops).has k = true} =
      unordered_map.size (reach ops)._properties := by
  have hnd := nodup_keys_reach ops
  have hset : {k : string_t | (reach ops).has k = true} =
      ↑((reach ops)._properties.map Prod.fst).toFinset := by
    ext k
    simp only [Set.mem_setOf_eq, has_iff_mem, List.coe_toFinset]
  rw [hset, Set.ncard_coe_Finset, List.toFinset_card_of_nodup hnd]
  simp [unordered_map.size]

/-- C9, as the code has it: for every bag reached from a new bag by `add` and `remove` calls,
the number of keys on which `try_get` succeeds is the size of the map; `enumerate` makes
exactly the callback calls `visits`, one after the other, where `visits` has that many
entries, no key twice, and holds `(k, v)` exactly when `try_get(k)` returns true with value
`v`; and `count()`, the size converted to `int`, is that number whenever the bag has fewer
than `2^31` entries. -/
theorem count_and_enumerate_of_reach (NDEBUG : Bool) (ops : List bag_op)
    (slot : Option string_t) :
    Set.ncard {k : string_t | (reach ops).has k = true} =
      unordered_map.size (reach ops)._properties ∧
    (unordered_map.size (reach ops)._properties < 2147483648 →
      (reach ops).count =
        ((Set.ncard {k : string_t | (reach ops).has k = true} : Nat) : Int)) ∧
    ∃ visits : List (string_t × string_t),
      (∀ (σ : Type) (callback : string_t → string_t → σ → σ) (s : σ),
        (reach ops).enumerate callback s =
          visits.foldl (fun s kv => callback kv.1 kv.2 s) s) ∧
      visits.length = unordered_map.size (reach ops)._properties ∧
      (unordered_map.size (reach ops)._properties < 2147483648 →
        (visits.length : Int) = (reach ops).count) ∧
      (visits.map Prod.fst).Nodup ∧
      ∀ k v : string_t, (k, v) ∈ visits ↔
        try_get NDEBUG (reach ops) (some k) (some slot) =
          .ok { ret := true, value := some (some v), self := reach ops } := by
  have hnd := nodup_keys_reach ops
  refine ⟨ncard_has_reach ops, fun hs => ?_, ?_⟩
  · rw [ncard_has_reach, count_of_lt _ hs]
  · refine ⟨(reach ops)._properties, fun σ callback s => rfl, rfl,
      fun hs => (count_of_lt _ hs).symm, hnd, fun k v => ?_⟩
    rw [mem_iff_find_of_nodup _ hnd, try_get_some]
    cases h : unordered_map.find (reach ops)._properties k with
    | none => simp
    | some kv =>
      have hk := unordered_map.find_key h
      constructor
      · intro e
        cases e
        rfl
      · intro e
        simp only [Except.ok.injEq, try_get_result.mk.injEq, Option.some.injEq, true_and,
          and_true] at e
        cases kv
        simp only at hk e
        rw [hk, e]

/-- C10: `common_property_to_string` sends the 13 members, in declaration order, to the 13
fixed names; different members get different names; the table has as many entries as the
enumeration has members before the sentinel, so the index of every such member is inside
the table. -/
theorem common_property_to_string_table (NDEBUG : Bool) :
    (common_property_to_string NDEBUG .TrustedPlatformAssemblies
        = .ok "TRUSTED_PLATFORM_ASSEMBLIES" ∧
      common_property_to_string NDEBUG .NativeDllSearchDirectories
        = .ok "NATIVE_DLL_SEARCH_DIRECTORIES" ∧
      common_property_to_string NDEBUG .PlatformResourceRoots = .ok "PLATFORM_RESOURCE_ROOTS" ∧
      common_property_to_string NDEBUG .AppDomainCompatSwitch = .ok "AppDomainCompatSwitch" ∧
      common_property_to_string NDEBUG .AppContextBaseDirectory
        = .ok "APP_CONTEXT_BASE_DIRECTORY" ∧
      common_property_to_string NDEBUG .AppContextDepsFiles = .ok "APP_CONTEXT_DEPS_FILES" ∧
      common_property_to_string NDEBUG .FxDepsFile = .ok "FX_DEPS_FILE" ∧
      common_property_to_string NDEBUG .ProbingDirectories = .ok "PROBING_DIRECTORIES" ∧
      common_property_to_string NDEBUG .FxProductVersion = .ok "FX_PRODUCT_VERSION" ∧
      common_property_to_string NDEBUG .JitPath = .ok "JIT_PATH" ∧
      common_property_to_string NDEBUG .StartUpHooks = .ok "STARTUP_HOOKS" ∧
      common_property_to_string NDEBUG .AppPaths = .ok "APP_PATHS" ∧
      common_property_to_string NDEBUG .AppNIPaths = .ok "APP_NI_PATHS") ∧
    (∀ p q : common_property, p ≠ .Last → q ≠ .Last →
      common_property_to_string NDEBUG p = common_property_to_string NDEBUG q → p = q) ∧
    PropertyNameMapping.Nodup ∧
    (PropertyNameMapping.length : Int) = static_cast_int common_property.Last ∧
    (∀ p : common_property, p ≠ .Last →
      0 ≤ static_cast_int p ∧ (static_cast_int p).toNat < PropertyNameMapping.length) := by
  refine ⟨?_, ?_, by decide, by decide, ?_⟩
  · cases NDEBUG <;> decide
  · cases NDEBUG <;> intro p q hp hq h <;> cases p <;> cases q <;>
      first
        | rfl
        | exact absurd rfl hp
        | exact absurd rfl hq
        | (exfalso; revert h; decide)
  · intro p hp
    cases p <;> first | exact absurd rfl hp | decide

end mono_property_bag_t

/-! ## Claims about the handle and the binder -/

namespace mono_t

theorem create_of_bind_error (env : Env) (p : Process) (libmono_path : string_t)
    (exe_path app_domain_friendly_name : c_str) (properties : mono_property_bag_t)
    (inst : Option Mono.mono_t) (p1 : Process) (f : Fault)
    (hbind : mono_bind env p libmono_path = (p1, .error f)) :
    create env p libmono_path exe_path app_domain_friendly_name properties inst =
      (p1, .error f) := by
  simp [create, hbind]

theorem create_of_bind_false (env : Env) (p : Process) (libmono_path : string_t)
    (exe_path app_domain_friendly_name : c_str) (properties : mono_property_bag_t)
    (inst : Option Mono.mono_t) (p1 : Process)
    (hbind : mono_bind env p libmono_path = (p1, .ok false)) :
    create env p libmono_path exe_path app_domain_friendly_name properties inst =
      (p1.record (Call.trace_error "Failed to bind to mono at '%s'" libmono_path),
        .ok (env.CoreClrBindFailure, inst)) := by
  simp [create, hbind]

/-- C1: in a process with the library loaded and the shutdown entry point resolved at `fn`,
the first `shutdown` on a handle (its flag is clear) calls the entry point once, with the
handle's host handle and domain id and the caller's out-parameter, and returns exactly the
status and exit code the entry point produced.  After that call and any further calls `ops`
on the handle, every `shutdown` returns `StatusCode::Success`, calls nothing (the process is
as before), and writes `Success` into the out-parameter when one is given, whatever the
first call returned. -/
theorem shutdown_first_forwards_then_success (env : Env) (p : Process) (self : Mono.mono_t)
    (fn : Nat) (latchedExitCode : Option Int) (ops : List handle_op) (q : Process)
    (later : Mono.mono_t) (again : Option Int)
    (hlib : p.g_mono.isSome = true) (hfn : p.coreclr_shutdown = some fn)
    (hfirst : self._is_shutdown = false)
    (hlater : (q, Except.ok later) ∈ run env p self (handle_op.shutdown latchedExitCode :: ops)) :
    shutdown env p self latchedExitCode =
      (p.record (Call.coreclr_shutdown_2 fn self._host_handle self._domain_id latchedExitCode),
       .ok { ret := (env.mono_shutdown_fn p.calls fn self._host_handle self._domain_id
                      latchedExitCode).1,
             latchedExitCode := latchedExitCode.map (fun _ =>
               (env.mono_shutdown_fn p.calls fn self._host_handle self._domain_id
                 latchedExitCode).2),
             self := { self with _is_shutdown := true } }) ∧
    shutdown env q later again =
      (q, .ok { ret := env.Success, latchedExitCode := again.map (fun _ => env.Success),
                self := later }) := by
  have h1 := shutdown_first env p self fn latchedExitCode hlib hfn hfirst
  refine ⟨h1, ?_⟩
  have hg := run_globals env _ p self _ hlater
  have hstep : step env p self (handle_op.shutdown latchedExitCode) =
      (p.record (Call.coreclr_shutdown_2 fn self._host_handle self._domain_id latchedExitCode),
        .ok { self with _is_shutdown := true }) := by
    simp [step, h1]
  have hflag : later._is_shutdown = true := by
    rw [run_cons, hstep] at hlater
    simp only [List.mem_cons, Prod.mk.injEq, Except.ok.injEq] at hlater
    rcases hlater with hx | hx
    · rw [hx.2]
    · exact run_flag env ops _ _ rfl q later hx
  exact shutdown_again env q later fn again (by rw [hg.1]; exact hlib)
    (by rw [hg.2]; exact hfn) hflag

/-- C1 at a concrete input: a handle of the stand-in runtime, whose shutdown entry point
reports a failure status; the second `shutdown`, after an `execute_assembly`, returns
`Success` and writes it. -/
theorem shutdown_first_forwards_then_success_witness :
    mockmono_bound.g_mono.isSome = true ∧ mockmono_bound.coreclr_shutdown = some 102 ∧
    (mono_t 77 1)._is_shutdown = false ∧
    shutdown mockmono mockmono_bound (mono_t 77 1) (some 0) =
      (mockmono_bound.record (Call.coreclr_shutdown_2 102 77 1 (some 0)),
       .ok { ret := -2147467259, latchedExitCode := some 3,
             self := { _is_shutdown := true, _host_handle := 77, _domain_id := 1 } }) ∧
    shutdown mockmono
        ((mockmono_bound.record (Call.coreclr_shutdown_2 102 77 1 (some 0))).record
          (Call.coreclr_execute_assembly 103 77 1 1 [some "app.dll"] (some "/app/app.dll")
            (some 0)))
        { _is_shutdown := true, _host_handle := 77, _domain_id := 1 } (some 5) =
      ((mockmono_bound.record (Call.coreclr_shutdown_2 102 77 1 (some 0))).record
          (Call.coreclr_execute_assembly 103 77 1 1 [some "app.dll"] (some "/app/app.dll")
            (some 0)),
       .ok { ret := 0, latchedExitCode := some 0,
             self := { _is_shutdown := true, _host_handle := 77, _domain_id := 1 } }) :=
  ⟨rfl, rfl, rfl,
   shutdown_first_forwards_then_success mockmono mockmono_bound (mono_t 77 1) 102 (some 0)
     [handle_op.execute_assembly 1 [some "app.dll"] (some "/app/app.dll") (some 0)]
     ((mockmono_bound.record (Call.coreclr_shutdown_2 102 77 1 (some 0))).record
        (Call.coreclr_execute_assembly 103 77 1 1 [some "app.dll"] (some "/app/app.dll")
          (some 0)))
     { _is_shutdown := true, _host_handle := 77, _domain_id := 1 } (some 5)
     rfl rfl rfl (by decide)⟩

/-- C2: start from a newly constructed handle (flag clear) in any process and make any
finite sequence of `execute_assembly`, `create_delegate` and `shutdown` calls on it.  At
every point of the run the shutdown entry point has been called at most once more than
before the run; and the flag is monotone: if it is set after one call, it is set after
every later call. -/
theorem shutdown_at_most_once (env : Env) (p : Process) (host_handle : host_handle_t)
    (domain_id : domain_id_t) (ops : List handle_op) :
    (∀ x ∈ run env p (mono_t host_handle domain_id) ops,
      shutdown_calls x.1.calls ≤ shutdown_calls p.calls + 1) ∧
    (run env p (mono_t host_handle domain_id) ops).Pairwise
      (fun a b => ∀ ha hb : Mono.mono_t, a.2 = .ok ha → b.2 = .ok hb →
        ha._is_shutdown = true → hb._is_shutdown = true) := by
  constructor
  · intro x hx
    simpa [mono_t] using run_budget env ops p (mono_t host_handle domain_id) x hx
  · generalize mono_t host_handle domain_id = self
    induction ops generalizing p self with
    | nil => simp [run]
    | cons op ops ih =>
      rw [run_cons]
      rcases hstep : step env p self op with ⟨p1, r⟩
      cases r with
      | error f => simp
      | ok self1 =>
        simp only [List.pairwise_cons]
        refine ⟨?_, ih p1 self1⟩
        intro b hb ha hb2 e1 e2 hf
        simp only [Except.ok.injEq] at e1
        subst e1
        rcases b with ⟨q, rb⟩
        simp only at e2
        subst e2
        exact run_flag env ops p1 self1 hf q hb2 hb

/-- C2 at a concrete input: `shutdown`, `execute_assembly`, `shutdown` on a new handle of the
stand-in runtime.  The entry point is called once, by the first `shutdown`; the flag is set
from then on. -/
theorem shutdown_at_most_once_witness :
    (run mockmono mockmono_bound (mono_t 77 1)
        [handle_op.shutdown none,
         handle_op.execute_assembly 1 [some "app.dll"] (some "/app/app.dll") (some 0),
         handle_op.shutdown (some 9)]).map
      (fun x => (shutdown_calls x.1.calls, Except.map (fun h => h._is_shutdown) x.2)) =
      [(1, .ok true), (1, .ok true), (1, .ok true)] ∧
    ∀ x ∈ run mockmono mockmono_bound (mono_t 77 1)
        [handle_op.shutdown none,
         handle_op.execute_assembly 1 [some "app.dll"] (some "/app/app.dll") (some 0),
         handle_op.shutdown (some 9)],
      shutdown_calls x.1.calls ≤ shutdown_calls mockmono_bound.calls + 1 :=
  ⟨by decide, (shutdown_at_most_once mockmono mockmono_bound 77 1 _).1⟩

/-- C3, as the code has it: when the library loads but at least one of the four pointers is
null after the four `get_symbol` calls, the binder does not report failure (it never returns
false).  In a build with assertions its closing assertion fails, and `create` stops there:
no status is returned, the entry point that starts the runtime is not called, no handle is
made.  In a build without assertions the binder returns true. -/
theorem create_missing_symbol (env : Env) (p : Process) (libmono_path : string_t)
    (exe_path app_domain_friendly_name : c_str) (properties : mono_property_bag_t)
    (inst : Option Mono.mono_t)
    (hentry : env.NDEBUG = true ∨ p.g_mono = none)
    (hload : (env.load_library p.calls (env.append_path libmono_path env.LIBMONO_NAME)
      p.g_mono).1 = true)
    (hmissing : Process.coreclr_initialize (mono_bind env p libmono_path).1 = none ∨
      (mono_bind env p libmono_path).1.coreclr_shutdown = none ∨
      (mono_bind env p libmono_path).1.coreclr_execute_assembly = none ∨
      (mono_bind env p libmono_path).1.coreclr_create_delegate = none) :
    (mono_bind env p libmono_path).2 ≠ .ok false ∧
    (env.NDEBUG = false →
      create env p libmono_path exe_path app_domain_friendly_name properties inst =
        ((mono_bind env p libmono_path).1, .error .assertion) ∧
      init_calls (create env p libmono_path exe_path app_domain_friendly_name properties
        inst).1.calls = init_calls p.calls) ∧
    (env.NDEBUG = true → (mono_bind env p libmono_path).2 = .ok true) := by
  have hb := mono_bind_loaded env p libmono_path hentry hload
  have hcond : (Option.isSome (Process.coreclr_initialize (mono_bind env p libmono_path).1) &&
      (mono_bind env p libmono_path).1.coreclr_shutdown.isSome &&
      (mono_bind env p libmono_path).1.coreclr_execute_assembly.isSome &&
      (mono_bind env p libmono_path).1.coreclr_create_delegate.isSome) = false := by
    rcases hmissing with h | h | h | h <;> simp [h]
  rw [hcond] at hb
  refine ⟨?_, ?_, ?_⟩
  · rw [hb]
    cases env.NDEBUG <;> simp [cassert, bind, Except.bind]
  · intro hN
    rw [hN] at hb
    have hbind : mono_bind env p libmono_path =
        ((mono_bind env p libmono_path).1, .error .assertion) := Prod.ext rfl hb
    have hc := create_of_bind_error env p libmono_path exe_path app_domain_friendly_name
      properties inst _ _ hbind
    refine ⟨hc, ?_⟩
    rw [hc]
    exact mono_bind_init_calls env p libmono_path
  · intro hN
    rw [hb, hN]
    rfl

end mono_t

namespace mono_t

/-- C3 at a concrete input: the stand-in library without `coreclr_shutdown_2`, in a build
with assertions. -/
theorem create_missing_symbol_witness :
    ((mockmono_lacking false).NDEBUG = true ∨ Process.start.g_mono = none) ∧
    ((mockmono_lacking false).load_library Process.start.calls
      ((mockmono_lacking false).append_path "/opt/mono" (mockmono_lacking false).LIBMONO_NAME)
      Process.start.g_mono).1 = true ∧
    (mono_bind (mockmono_lacking false) Process.start "/opt/mono").1.coreclr_shutdown = none ∧
    create (mockmono_lacking false) Process.start "/opt/mono" (some "/app/app") (some "app")
        { _properties := [("APP_PATHS", "/bin")] } none =
      ((mono_bind (mockmono_lacking false) Process.start "/opt/mono").1, .error .assertion) :=
  ⟨Or.inr rfl, by decide, by decide,
   ((create_missing_symbol (mockmono_lacking false) Process.start "/opt/mono"
      (some "/app/app") (some "app") { _properties := [("APP_PATHS", "/bin")] } none
      (Or.inr rfl) (by decide) (Or.inr (Or.inl (by decide)))).2.1 rfl).1⟩

/-- C3 as stated fails: the stand-in library loads but lacks `coreclr_shutdown_2`.  In a
build with assertions `create` stops at the assertion of the binder and returns nothing, so
not the bind-failure status; in a build without assertions it calls the entry point that
starts the runtime, returns `Success` and makes a handle. -/
theorem create_missing_symbol_counterexample :
    (mono_bind (mockmono_lacking false) Process.start "/opt/mono").1.coreclr_shutdown = none ∧
    (create (mockmono_lacking false) Process.start "/opt/mono" (some "/app/app") (some "app")
        { _properties := [("APP_PATHS", "/bin")] } none).2 = .error .assertion ∧
    (create (mockmono_lacking false) Process.start "/opt/mono" (some "/app/app") (some "app")
        { _properties := [("APP_PATHS", "/bin")] } none).2 ≠
      .ok ((mockmono_lacking false).CoreClrBindFailure, none) ∧
    (mono_bind (mockmono_lacking true) Process.start "/opt/mono").1.coreclr_shutdown = none ∧
    (create (mockmono_lacking true) Process.start "/opt/mono" (some "/app/app") (some "app")
        { _properties := [("APP_PATHS", "/bin")] } none).2 =
      .ok ((mockmono_lacking true).Success, some (mono_t 77 1)) ∧
    init_calls (create (mockmono_lacking true) Process.start "/opt/mono" (some "/app/app")
        (some "app") { _properties := [("APP_PATHS", "/bin")] } none).1.calls = 1 := by
  decide

/-- C4: when the binder is entered as it expects (`g_mono` null, or assertions compiled out)
and `load_library` returns false, `create` returns `StatusCode::CoreClrBindFailure` and hands
back the caller's `inst` as it was; the only calls it makes are `load_library` and the error
trace line, so no symbol is resolved and no entry point is called; the four function
pointers keep their values. -/
theorem create_load_failure (env : Env) (p : Process) (libmono_path : string_t)
    (exe_path app_domain_friendly_name : c_str) (properties : mono_property_bag_t)
    (inst : Option Mono.mono_t)
    (hentry : env.NDEBUG = true ∨ p.g_mono = none)
    (hload : (env.load_library p.calls (env.append_path libmono_path env.LIBMONO_NAME)
      p.g_mono).1 = false) :
    (create env p libmono_path exe_path app_domain_friendly_name properties inst).2 =
      .ok (env.CoreClrBindFailure, inst) ∧
    (create env p libmono_path exe_path app_domain_friendly_name properties inst).1.calls =
      p.calls ++ [Call.load_library (env.append_path libmono_path env.LIBMONO_NAME),
        Call.trace_error "Failed to bind to mono at '%s'" libmono_path] ∧
    Process.coreclr_initialize (create env p libmono_path exe_path app_domain_friendly_name
      properties inst).1 = p.coreclr_initialize ∧
    (create env p libmono_path exe_path app_domain_friendly_name properties
      inst).1.coreclr_shutdown = p.coreclr_shutdown ∧
    (create env p libmono_path exe_path app_domain_friendly_name properties
      inst).1.coreclr_execute_assembly = p.coreclr_execute_assembly ∧
    (create env p libmono_path exe_path app_domain_friendly_name properties
      inst).1.coreclr_create_delegate = p.coreclr_create_delegate := by
  rw [create_of_bind_false env p libmono_path exe_path app_domain_friendly_name properties
    inst _ (mono_bind_load_failure env p libmono_path hentry hload)]
  simp [Process.record]

/-- C4 at a concrete input: no library in `/usr/lib`, and a caller whose `inst` already holds
a handle. -/
theorem create_load_failure_witness :
    (mockmono.NDEBUG = true ∨ Process.start.g_mono = none) ∧
    (mockmono.load_library Process.start.calls
      (mockmono.append_path "/usr/lib" mockmono.LIBMONO_NAME) Process.start.g_mono).1 = false ∧
    (create mockmono Process.start "/usr/lib" (some "/app/app") (some "app")
        { _properties := [("APP_PATHS", "/bin")] } (some (mono_t 5 6))).2 =
      .ok (-2147450744, some (mono_t 5 6)) ∧
    (create mockmono Process.start "/usr/lib" (some "/app/app") (some "app")
        { _properties := [("APP_PATHS", "/bin")] } (some (mono_t 5 6))).1.calls =
      [Call.load_library "/usr/lib/libmono.so",
        Call.trace_error "Failed to bind to mono at '%s'" "/usr/lib"] :=
  have h := create_load_failure mockmono Process.start "/usr/lib" (some "/app/app")
    (some "app") { _properties := [("APP_PATHS", "/bin")] } (some (mono_t 5 6))
    (Or.inr rfl) (by decide)
  ⟨Or.inr rfl, by decide, h.1, h.2.1⟩

/-- C5: after a bind that returned true with the library handle and `coreclr_initialize`
non-null, `create` fills its vectors (for a bag of fewer than `2^31` entries this always
returns) and, once they are filled, calls the entry point once.  If the status `hr` it
returns does not satisfy `SUCCEEDED`, `create` returns exactly `hr` and hands back the
caller's `inst` as it was.  If it does, `create` returns `StatusCode::Success` and `inst`
holds a handle with the host handle and the domain id the entry point wrote and with the
shutdown flag false. -/
theorem create_after_bind (env : Env) (p : Process) (libmono_path : string_t)
    (exe_path app_domain_friendly_name : c_str) (properties : mono_property_bag_t)
    (inst : Option Mono.mono_t) (p1 : Process) (fn : Nat)
    (hbind : mono_bind env p libmono_path = (p1, .ok true))
    (hlib : p1.g_mono.isSome = true) (hfn : p1.coreclr_initialize = some fn) :
    (unordered_map.size properties._properties < 2147483648 →
      ∃ l : create_locals, create_flatten env properties = .ok l) ∧
    ∀ l : create_locals, create_flatten env properties = .ok l →
      (env.SUCCEEDED (env.mono_initialize_fn p1.calls fn exe_path app_domain_friendly_name
          properties.count l.keys l.values).hr = false →
        create env p libmono_path exe_path app_domain_friendly_name properties inst =
          (p1.record (Call.coreclr_initialize fn exe_path app_domain_friendly_name
              properties.count l.keys l.values),
            .ok ((env.mono_initialize_fn p1.calls fn exe_path app_domain_friendly_name
              properties.count l.keys l.values).hr, inst))) ∧
      (env.SUCCEEDED (env.mono_initialize_fn p1.calls fn exe_path app_domain_friendly_name
          properties.count l.keys l.values).hr = true →
        create env p libmono_path exe_path app_domain_friendly_name properties inst =
          (p1.record (Call.coreclr_initialize fn exe_path app_domain_friendly_name
              properties.count l.keys l.values),
            .ok (env.Success,
              some { _is_shutdown := false,
                     _host_handle := (env.mono_initialize_fn p1.calls fn exe_path
                       app_domain_friendly_name properties.count l.keys l.values).hostHandle,
                     _domain_id := (env.mono_initialize_fn p1.calls fn exe_path
                       app_domain_friendly_name properties.count l.keys l.values).domainId }))) := by
  have hc : cassert env.NDEBUG (p1.g_mono.isSome && p1.coreclr_initialize.isSome) = .ok () := by
    simp [cassert, hlib, hfn]
  refine ⟨fun hs => ?_, fun l hl => ⟨?_, ?_⟩⟩
  · obtain ⟨l, hl, _⟩ := create_flatten_ok env properties hs
    exact ⟨l, hl⟩
  · intro h
    unfold create
    rw [hbind]
    dsimp only
    rw [hc]
    dsimp only
    rw [hl]
    dsimp only
    rw [hfn]
    simp [h]
  · intro h
    unfold create
    rw [hbind]
    dsimp only
    rw [hc]
    dsimp only
    rw [hl]
    dsimp only
    rw [hfn]
    simp [h, mono_t]

/-- C5 at a concrete input: the stand-in library is found and its entry point reports
success with host handle 77 and domain id 1. -/
theorem create_after_bind_witness :
    mono_bind mockmono Process.start "/opt/mono" = (mockmono_bound, .ok true) ∧
    mockmono_bound.g_mono.isSome = true ∧ mockmono_bound.coreclr_initialize = some 101 ∧
    (create mockmono Process.start "/opt/mono" (some "/app/app") (some "app")
        { _properties := [("APP_PATHS", "/bin")] } none).2 =
      .ok (0, some { _is_shutdown := false, _host_handle := 77, _domain_id := 1 }) :=
  ⟨by decide, rfl, rfl, by
    have h := create_after_bind mockmono Process.start "/opt/mono"
      (some "/app/app") (some "app") { _properties := [("APP_PATHS", "/bin")] } none
      mockmono_bound 101 (by decide) rfl rfl
    obtain ⟨l, hl⟩ := h.1 (by decide)
    rw [((h.2 l hl).2 rfl)]
    rfl⟩

end mono_t

/-! ## Further facts about the property bag -/

namespace unordered_map

theorem find_erase_self (m : List (string_t × string_t)) (k : string_t)
    (h : (m.map Prod.fst).Nodup) : find (erase m k) k = none := by
  induction m with
  | nil => simp [erase, find]
  | cons a m ih =>
    rw [List.map_cons, List.nodup_cons] at h
    by_cases e : a.1 = k
    · simp only [erase, if_pos e]
      rw [find_eq_none_iff, ← e]
      exact h.1
    · simp only [erase, if_neg e, find]
      exact ih h.2

theorem length_erase (m : List (string_t × string_t)) (k : string_t)
    (h : (find m k).isSome = true) : (erase m k).length + 1 = m.length := by
  induction m with
  | nil => simp [find] at h
  | cons a m ih =>
    unfold find at h
    by_cases e : a.1 = k
    · simp [erase, e]
    · simp only [e, if_false] at h
      simp [erase, e, ih h]

end unordered_map

namespace mono_property_bag_t

/-- The answer of `try_get` without the bag it hands back: return value and out-parameter.
It depends on the bag only through what `find` yields for the key. -/
theorem try_get_congr (NDEBUG : Bool) (b1 b2 : Mono.mono_property_bag_t) (j : string_t)
    (value : Option (Option string_t))
    (h : unordered_map.find b1._properties j = unordered_map.find b2._properties j) :
    Except.map (fun r => (r.ret, r.value)) (try_get NDEBUG b1 (some j) value) =
      Except.map (fun r => (r.ret, r.value)) (try_get NDEBUG b2 (some j) value) := by
  cases NDEBUG <;> cases value <;> cases hf : unordered_map.find b2._properties j <;>
    simp [try_get, cassert, bind, Except.bind, pure, Except.pure, Except.map, h, hf]

/-- The name of a member other than the sentinel, as both overloads look it up. -/
theorem array_get_name (p : common_property) (hp : p ≠ common_property.Last) :
    ∃ name : string_t, array_get PropertyNameMapping (static_cast_int p) = .ok name ∧
      ∀ NDEBUG : Bool, cassert NDEBUG (decide (0 ≤ static_cast_int p) &&
        decide (static_cast_int p < static_cast_int common_property.Last)) = .ok () := by
  cases p <;> first
    | exact absurd rfl hp
    | exact ⟨_, rfl, fun NDEBUG => by cases NDEBUG <;> rfl⟩

end mono_property_bag_t

/-! ## Claims about the property bag, continued -/

namespace mono_property_bag_t

/-- C11, as the code has it: for every bag a caller can have and every key: `remove(nullptr)`
and `remove(k)` for an absent `k` hand back the bag as it was; for a present `k`, after
`remove(k)` the call `try_get(k)` returns false (the slot keeps its content), the bag has
exactly one entry less, and `count()`, the size converted to `int`, is one less whenever the
bag had fewer than `2^31` entries.  In the scenario of the spec: `add(AppPaths, "/bin")` and `add("CUSTOM_KEY", "1")` on a new bag give
`count() == 2`, both values can be read back, and after `remove("CUSTOM_KEY")` `count()` is 1
and `try_get(AppPaths)` still yields `"/bin"`. -/
theorem remove_effect (NDEBUG : Bool) (ops : List bag_op) (k : string_t)
    (slot : Option string_t) :
    remove (reach ops) none = reach ops ∧
    ((reach ops).has k = false → remove (reach ops) (some k) = reach ops) ∧
    ((reach ops).has k = true →
      try_get NDEBUG (remove (reach ops) (some k)) (some k) (some slot) =
        .ok { ret := false, value := some slot, self := remove (reach ops) (some k) } ∧
      unordered_map.size (remove (reach ops) (some k))._properties + 1 =
        unordered_map.size (reach ops)._properties ∧
      (unordered_map.size (reach ops)._properties < 2147483648 →
        (remove (reach ops) (some k)).count = (reach ops).count - 1)) ∧
    add_common_property NDEBUG (reach []) common_property.AppPaths (some "/bin") =
      .ok (true, { _properties := [("APP_PATHS", "/bin")] }) ∧
    add { _properties := [("APP_PATHS", "/bin")] } (some "CUSTOM_KEY") (some "1") =
      (true, { _properties := [("APP_PATHS", "/bin"), ("CUSTOM_KEY", "1")] }) ∧
    count { _properties := [("APP_PATHS", "/bin"), ("CUSTOM_KEY", "1")] } = 2 ∧
    try_get_common_property NDEBUG
        { _properties := [("APP_PATHS", "/bin"), ("CUSTOM_KEY", "1")] }
        common_property.AppPaths (some slot) =
      .ok { ret := true, value := some (some "/bin"),
            self := { _properties := [("APP_PATHS", "/bin"), ("CUSTOM_KEY", "1")] } } ∧
    try_get NDEBUG { _properties := [("APP_PATHS", "/bin"), ("CUSTOM_KEY", "1")] }
        (some "CUSTOM_KEY") (some slot) =
      .ok { ret := true, value := some (some "1"),
            self := { _properties := [("APP_PATHS", "/bin"), ("CUSTOM_KEY", "1")] } } ∧
    remove { _properties := [("APP_PATHS", "/bin"), ("CUSTOM_KEY", "1")] }
        (some "CUSTOM_KEY") = { _properties := [("APP_PATHS", "/bin")] } ∧
    count { _properties := [("APP_PATHS", "/bin")] } = 1 ∧
    try_get_common_property NDEBUG { _properties := [("APP_PATHS", "/bin")] }
        common_property.AppPaths (some slot) =
      .ok { ret := true, value := some (some "/bin"),
            self := { _properties := [("APP_PATHS", "/bin")] } } := by
  refine ⟨rfl, ?_, ?_, ?_, by decide, by decide, ?_, ?_, by decide, by decide, ?_⟩
  · intro h
    rw [has_eq] at h
    cases hf : unordered_map.find (reach ops)._properties k with
    | none => simp only [remove, hf]
    | some kv => rw [hf] at h; simp at h
  · intro h
    rw [has_eq] at h
    have hnd := nodup_keys_reach ops
    cases hf : unordered_map.find (reach ops)._properties k with
    | none => rw [hf] at h; simp at h
    | some kv =>
      have hlen := unordered_map.length_erase (reach ops)._properties k h
      have hrem : remove (reach ops) (some k) =
          { _properties := unordered_map.erase (reach ops)._properties k } := by
        simp only [remove, hf]
      rw [hrem]
      refine ⟨?_, hlen, fun hs => ?_⟩
      · rw [try_get_some]
        simp only [unordered_map.find_erase_self _ k hnd]
      · have hs2 : unordered_map.size (unordered_map.erase (reach ops)._properties k) <
            2147483648 := by
          simp only [unordered_map.size] at hs ⊢
          omega
        rw [count_of_lt _ hs, count_of_lt _ hs2]
        simp only [unordered_map.size, ← hlen]
        push_cast
        ring
  · cases NDEBUG <;> decide
  · cases NDEBUG <;> rfl
  · cases NDEBUG <;> rfl
  · cases NDEBUG <;> rfl

/-- C12: for every bag, every member `p` other than the sentinel and every value (null
included): `common_property_to_string(p)` is a name such that `add(p, value)` returns what
`add(name, value)` returns and leaves the same bag, and `try_get(p, out)` answers as
`try_get(name, out)` does.  So a value stored through the enumeration is read back through
the name, and a value stored through the name is read back through the enumeration. -/
theorem common_property_overloads_delegate (NDEBUG : Bool) (bag : Mono.mono_property_bag_t)
    (p : common_property) (value : Option string_t) (out : Option (Option string_t))
    (v : string_t) (slot : Option string_t) (hp : p ≠ common_property.Last) :
    ∃ name : string_t, common_property_to_string NDEBUG p = .ok name ∧
      add_common_property NDEBUG bag p value = .ok (add bag (some name) value) ∧
      try_get_common_property NDEBUG bag p out = try_get NDEBUG bag (some name) out ∧
      (∃ stored : Mono.mono_property_bag_t,
        Except.map Prod.snd (add_common_property NDEBUG bag p (some v)) = .ok stored ∧
        try_get NDEBUG stored (some name) (some slot) =
          .ok { ret := true, value := some (some v), self := stored }) ∧
      try_get_common_property NDEBUG (add bag (some name) (some v)).2 p (some slot) =
        .ok { ret := true, value := some (some v), self := (add bag (some name) (some v)).2 } := by
  obtain ⟨name, hname, hassert⟩ := array_get_name p hp
  have hadd : ∀ value : Option string_t,
      add_common_property NDEBUG bag p value = .ok (add bag (some name) value) := by
    intro value
    simp only [add_common_property, hassert NDEBUG, hname, bind, Except.bind, pure, Except.pure]
  have hget : ∀ (b : Mono.mono_property_bag_t) (out : Option (Option string_t)),
      try_get_common_property NDEBUG b p out = try_get NDEBUG b (some name) out := by
    intro b out
    simp only [try_get_common_property, hassert NDEBUG, hname, bind, Except.bind]
  refine ⟨name, ?_, hadd value, hget bag out, ⟨(add bag (some name) (some v)).2, ?_, ?_⟩, ?_⟩
  · simp only [common_property_to_string, hassert NDEBUG, hname, bind, Except.bind]
  · rw [hadd]; rfl
  · rw [try_get_some, find_add_self]
  · rw [hget, try_get_some, find_add_self]

/-- C12 at a concrete input: `AppPaths` and the name `"APP_PATHS"` on a new bag. -/
theorem common_property_overloads_delegate_witness :
    common_property.AppPaths ≠ common_property.Last ∧
    common_property_to_string false common_property.AppPaths = .ok "APP_PATHS" ∧
    add_common_property false (reach []) common_property.AppPaths (some "/bin") =
      .ok (add (reach []) (some "APP_PATHS") (some "/bin")) ∧
    try_get false { _properties := [("APP_PATHS", "/bin")] } (some "APP_PATHS") (some none) =
      .ok { ret := true, value := some (some "/bin"),
            self := { _properties := [("APP_PATHS", "/bin")] } } ∧
    try_get_common_property false (add (reach []) (some "APP_PATHS") (some "/bin")).2
        common_property.AppPaths (some none) =
      .ok { ret := true, value := some (some "/bin"),
            self := { _properties := [("APP_PATHS", "/bin")] } } := by
  obtain ⟨name, h1, h2, _, _, h5⟩ := common_property_overloads_delegate false (reach [])
    common_property.AppPaths (some "/bin") (some none) "/bin" none (by decide)
  have hn : name = "APP_PATHS" := by
    have : (Except.ok name : Except Fault string_t) = .ok "APP_PATHS" := h1.symm.trans (by decide)
    exact Except.ok.inj this
  subst hn
  exact ⟨by decide, h1, h2, by decide, h5⟩

/-- C16: `add(k, v)` and `remove(k)` leave every other key alone: for `j` different from `k`,
`try_get(j, out)` returns the same flag and leaves the same content in the out-parameter
after the call as before it. -/
theorem add_remove_frame (NDEBUG : Bool) (bag : Mono.mono_property_bag_t) (k v j : string_t)
    (out : Option (Option string_t)) (hj : j ≠ k) :
    Except.map (fun r => (r.ret, r.value))
        (try_get NDEBUG (add bag (some k) (some v)).2 (some j) out) =
      Except.map (fun r => (r.ret, r.value)) (try_get NDEBUG bag (some j) out) ∧
    Except.map (fun r => (r.ret, r.value))
        (try_get NDEBUG (remove bag (some k)) (some j) out) =
      Except.map (fun r => (r.ret, r.value)) (try_get NDEBUG bag (some j) out) := by
  have hne : (some k : Option string_t) ≠ some j := fun e => hj (Option.some.inj e).symm
  exact ⟨try_get_congr NDEBUG _ _ j out (find_add_ne bag (some k) (some v) j hne),
    try_get_congr NDEBUG _ _ j out (find_remove_ne bag (some k) j hne)⟩

/-- C16 at a concrete input: overwriting and removing `"A"` next to `"B"`. -/
theorem add_remove_frame_witness :
    ("B" : string_t) ≠ "A" ∧
    try_get false (add { _properties := [("A", "1"), ("B", "2")] } (some "A") (some "9")).2
        (some "B") (some none) =
      .ok { ret := true, value := some (some "2"),
            self := { _properties := [("A", "9"), ("B", "2")] } } ∧
    try_get false (remove { _properties := [("A", "1"), ("B", "2")] } (some "A"))
        (some "B") (some none) =
      .ok { ret := true, value := some (some "2"), self := { _properties := [("B", "2")] } } ∧
    Except.map (fun r => (r.ret, r.value))
        (try_get false (add { _properties := [("A", "1"), ("B", "2")] } (some "A")
          (some "9")).2 (some "B") (some none)) =
      Except.map (fun r => (r.ret, r.value))
        (try_get false { _properties := [("A", "1"), ("B", "2")] } (some "B") (some none)) :=
  ⟨by decide, by decide, by decide,
   (add_remove_frame false { _properties := [("A", "1"), ("B", "2")] } "A" "9" "B"
      (some none) (by decide)).1⟩

/-- C18: `try_get` with a non-null key never changes the bag: whenever it returns, it hands
back the bag it was given, and with a non-null out-parameter it always returns.  When the
key is absent it returns false and the slot holds what it held before.  A bag that has seen
only `remove` calls since its construction has `count() == 0` and `try_get` returns false on
it for every key. -/
theorem try_get_is_read_only (NDEBUG : Bool) (bag : Mono.mono_property_bag_t) (k : string_t)
    (out : Option (Option string_t)) (slot : Option string_t) (removes : List (Option string_t)) :
    (∀ r : try_get_result, try_get NDEBUG bag (some k) out = .ok r → r.self = bag) ∧
    (∃ r : try_get_result, try_get NDEBUG bag (some k) (some slot) = .ok r ∧ r.self = bag ∧
      r.self.count = bag.count ∧
      (bag.has k = false → r.ret = false ∧ r.value = some slot)) ∧
    (reach (removes.map bag_op.remove)).count = 0 ∧
    try_get NDEBUG (reach (removes.map bag_op.remove)) (some k) (some slot) =
      .ok { ret := false, value := some slot, self := reach (removes.map bag_op.remove) } := by
  have hempty : reach (removes.map bag_op.remove) = reach [] := by
    induction removes using List.reverseRecOn with
    | nil => rfl
    | append_singleton xs x ih =>
      rw [List.map_append, reach, apply_all_append]
      change apply_all (reach (xs.map bag_op.remove)) _ = _
      rw [ih]
      cases x <;> rfl
  refine ⟨?_, ?_, ?_, ?_⟩
  · intro r hr
    unfold try_get at hr
    cases NDEBUG <;> cases out <;> cases hf : unordered_map.find bag._properties k <;>
      simp [cassert, bind, Except.bind, pure, Except.pure, hf] at hr <;>
      (rw [← hr])
  · rw [try_get_some, has_eq]
    cases hf : unordered_map.find bag._properties k with
    | none => exact ⟨_, rfl, rfl, rfl, fun _ => ⟨rfl, rfl⟩⟩
    | some kv => exact ⟨_, rfl, rfl, rfl, fun h => by simp at h⟩
  · rw [hempty]; rfl
  · rw [hempty, try_get_some]; rfl

end mono_property_bag_t

/-! ## Further facts about `mono_bind` and `create` -/

namespace mono_t

theorem array_get_append {α : Type} (xs ys : List α) (a : α) :
    array_get (xs ++ a :: ys) (xs.length : Int) = .ok a := by
  have h : (xs ++ a :: ys).get? xs.length = some a := by
    induction xs with
    | nil => rfl
    | cons x xs ih => simpa using ih
  unfold array_get
  rw [if_pos (Int.ofNat_nonneg _)]
  simp only [Int.toNat_ofNat]
  rw [h]

theorem array_set_append {α : Type} (xs ys : List α) (a b : α) :
    array_set (xs ++ a :: ys) (xs.length : Int) b = .ok (xs ++ b :: ys) := by
  have h : (xs ++ a :: ys).set xs.length b = xs ++ b :: ys := by
    induction xs with
    | nil => rfl
    | cons x xs ih => simp
  simp [array_set, h]

/-- One call of the callback of `create` when `done` entries are in place and the index
stands right behind them: the entry goes to that place, in encoded form, and the index
moves on. -/
theorem create_callback_content (env : Env) (kv : string_t × string_t)
    (done : List (string_t × string_t)) (r : Nat) :
    create_callback env kv.1 kv.2
        (.ok { keys_strs := done.map (fun e => (env.pal_clrstring e.1 []).2) ++
                 List.replicate (r + 1) [],
               keys := done.map (fun e => some (env.pal_clrstring e.1 []).2) ++
                 List.replicate (r + 1) none,
               values_strs := done.map (fun e => (env.pal_clrstring e.2 []).2) ++
                 List.replicate (r + 1) [],
               values := done.map (fun e => some (env.pal_clrstring e.2 []).2) ++
                 List.replicate (r + 1) none,
               index := (done.length : Int) }) =
      .ok { keys_strs := (done ++ [kv]).map (fun e => (env.pal_clrstring e.1 []).2) ++
              List.replicate r [],
            keys := (done ++ [kv]).map (fun e => some (env.pal_clrstring e.1 []).2) ++
              List.replicate r none,
            values_strs := (done ++ [kv]).map (fun e => (env.pal_clrstring e.2 []).2) ++
              List.replicate r [],
            values := (done ++ [kv]).map (fun e => some (env.pal_clrstring e.2 []).2) ++
              List.replicate r none,
            index := ((done ++ [kv]).length : Int) } := by
  have hk := array_get_append (done.map (fun e => (env.pal_clrstring e.1 []).2))
    (List.replicate r []) ([] : List Char)
  have hks := fun b => array_set_append (done.map (fun e => (env.pal_clrstring e.1 []).2))
    (List.replicate r []) ([] : List Char) b
  have hk2 := fun b => array_get_append (done.map (fun e => (env.pal_clrstring e.1 []).2))
    (List.replicate r []) (b : List Char)
  have hkp := fun b => array_set_append
    (done.map (fun e => some (env.pal_clrstring e.1 []).2))
    (List.replicate r none) (none : Option (List Char)) b
  have hv := array_get_append (done.map (fun e => (env.pal_clrstring e.2 []).2))
    (List.replicate r []) ([] : List Char)
  have hvs := fun b => array_set_append (done.map (fun e => (env.pal_clrstring e.2 []).2))
    (List.replicate r []) ([] : List Char) b
  have hv2 := fun b => array_get_append (done.map (fun e => (env.pal_clrstring e.2 []).2))
    (List.replicate r []) (b : List Char)
  have hvp := fun b => array_set_append
    (done.map (fun e => some (env.pal_clrstring e.2 []).2))
    (List.replicate r none) (none : Option (List Char)) b
  simp only [List.length_map] at hk hks hk2 hkp hv hvs hv2 hvp
  simp only [create_callback, bind, Except.bind, pure, Except.pure, List.replicate_succ,
    hk, hks, hk2, hkp, hv, hvs, hv2, hvp]
  simp

/-- The loop of `enumerate` in `create`, entry by entry. -/
theorem create_fold_content (env : Env) (m : List (string_t × string_t)) :
    ∀ (done : List (string_t × string_t)) (extra : Nat),
      m.foldl (fun s kv => create_callback env kv.1 kv.2 s)
        (.ok { keys_strs := done.map (fun e => (env.pal_clrstring e.1 []).2) ++
                 List.replicate (m.length + extra) [],
               keys := done.map (fun e => some (env.pal_clrstring e.1 []).2) ++
                 List.replicate (m.length + extra) none,
               values_strs := done.map (fun e => (env.pal_clrstring e.2 []).2) ++
                 List.replicate (m.length + extra) [],
               values := done.map (fun e => some (env.pal_clrstring e.2 []).2) ++
                 List.replicate (m.length + extra) none,
               index := (done.length : Int) }) =
      .ok { keys_strs := (done ++ m).map (fun e => (env.pal_clrstring e.1 []).2) ++
              List.replicate extra [],
            keys := (done ++ m).map (fun e => some (env.pal_clrstring e.1 []).2) ++
              List.replicate extra none,
            values_strs := (done ++ m).map (fun e => (env.pal_clrstring e.2 []).2) ++
              List.replicate extra [],
            values := (done ++ m).map (fun e => some (env.pal_clrstring e.2 []).2) ++
              List.replicate extra none,
            index := ((done ++ m).length : Int) } := by
  induction m with
  | nil => intro done extra; simp
  | cons kv m ih =>
    intro done extra
    have hlen : (kv :: m).length + extra = (m.length + extra) + 1 := by
      simp only [List.length_cons]; omega
    rw [List.foldl_cons, hlen, create_callback_content env kv done (m.length + extra),
      ih (done ++ [kv]) extra]
    simp

/-- What the filling of the vectors in `create` yields for a bag of fewer than `2^31`
entries: entry `i` of the bag, in the order `enumerate` visits, stands encoded at index `i`
of the key and value vectors. -/
theorem create_flatten_content (env : Env) (properties : mono_property_bag_t)
    (hsize : unordered_map.size properties._properties < 2147483648) :
    create_flatten env properties =
      .ok { keys_strs := properties._properties.map (fun e => (env.pal_clrstring e.1 []).2),
            keys := properties._properties.map (fun e => some (env.pal_clrstring e.1 []).2),
            values_strs :=
              properties._properties.map (fun e => (env.pal_clrstring e.2 []).2),
            values := properties._properties.map (fun e => some (env.pal_clrstring e.2 []).2),
            index := properties.count } := by
  have h := create_fold_content env properties._properties [] 0
  simp only [List.map_nil, List.nil_append, List.length_nil, Nat.add_zero,
    List.replicate_zero, List.append_nil, Nat.cast_zero] at h
  have hcount := count_of_lt properties hsize
  have hnonneg : ¬ properties.count < 0 := by rw [hcount]; omega
  unfold create_flatten mono_property_bag_t.enumerate create_locals.start
  rw [if_neg hnonneg, hcount]
  simp only [unordered_map.size, Int.toNat_ofNat]
  exact h

/-- Once a call of the callback of `create` has stopped, the rest of the loop changes
nothing. -/
theorem create_fold_error (env : Env) (m : List (string_t × string_t)) (f : Fault) :
    m.foldl (fun s kv => create_callback env kv.1 kv.2 s) (.error f) = .error f := by
  induction m with
  | nil => rfl
  | cons kv m ih => rw [List.foldl_cons]; exact ih

/-- A bag whose `count()` is negative: the first vector constructor of `create` throws. -/
theorem create_flatten_negative (env : Env) (properties : mono_property_bag_t)
    (h : properties.count < 0) : create_flatten env properties = .error .exception := by
  unfold create_flatten
  rw [if_pos h]

/-- The loop of `enumerate` over more entries than the vectors have slots: after
`pre.length` entries the index equals the length of the vectors, and the first write of the
next call of the callback is past the end. -/
theorem create_fold_overrun (env : Env) (pre post : List (string_t × string_t))
    (kv : string_t × string_t) :
    (pre ++ kv :: post).foldl (fun s e => create_callback env e.1 e.2 s)
      (.ok (create_locals.start (pre.length : Int))) = .error .undefined := by
  have hfold := create_fold_content env pre [] 0
  simp only [List.map_nil, List.nil_append, List.length_nil, Nat.add_zero,
    List.replicate_zero, List.append_nil, Nat.cast_zero] at hfold
  have hget : array_get (pre.map (fun e => (env.pal_clrstring e.1 []).2))
      (pre.length : Int) = .error .undefined := by
    unfold array_get
    rw [if_pos (Int.ofNat_nonneg _)]
    simp only [Int.toNat_ofNat]
    rw [List.get?_eq_none.mpr (by rw [List.length_map])]
  have hstep : create_callback env kv.1 kv.2
      (.ok { keys_strs := pre.map (fun e => (env.pal_clrstring e.1 []).2),
             keys := pre.map (fun e => some (env.pal_clrstring e.1 []).2),
             values_strs := pre.map (fun e => (env.pal_clrstring e.2 []).2),
             values := pre.map (fun e => some (env.pal_clrstring e.2 []).2),
             index := (pre.length : Int) }) = .error .undefined := by
    simp only [create_callback, bind, Except.bind, hget]
  unfold create_locals.start
  simp only [Int.toNat_ofNat]
  rw [List.foldl_append, hfold, List.foldl_cons, hstep]
  exact create_fold_error env post _

/-- A bag with more entries than its `count()`, which is not negative: the callback of
`create` is called with the index equal to `propertyCount`, and its first write is past the
end of the vector. -/
theorem create_flatten_overrun (env : Env) (properties : mono_property_bag_t)
    (h0 : 0 ≤ properties.count)
    (h1 : properties.count.toNat < properties._properties.length) :
    create_flatten env properties = .error .undefined := by
  obtain ⟨pre, kv, post, hlist, hplen⟩ : ∃ (pre : List (string_t × string_t))
      (kv : string_t × string_t) (post : List (string_t × string_t)),
      properties._properties = pre ++ kv :: post ∧ (pre.length : Int) = properties.count := by
    cases hd : properties._properties.drop properties.count.toNat with
    | nil =>
      have := congrArg List.length hd
      rw [List.length_drop] at this
      simp at this
      omega
    | cons kv post =>
      refine ⟨properties._properties.take properties.count.toNat, kv, post, ?_, ?_⟩
      · rw [← hd]; exact (List.take_append_drop _ _).symm
      · rw [List.length_take, Nat.min_eq_left (by omega)]
        exact Int.toNat_of_nonneg h0
  have h := create_fold_overrun env pre post kv
  rw [← hlist, hplen] at h
  unfold create_flatten mono_property_bag_t.enumerate
  rw [if_neg (by omega)]
  exact h

/-- When the filling of the vectors stops, `create` stops with it, after the bind and before
any call of an entry point. -/
theorem create_of_flatten_error (env : Env) (p : Process) (libmono_path : string_t)
    (exe_path app_domain_friendly_name : c_str) (properties : mono_property_bag_t)
    (inst : Option Mono.mono_t) (p1 : Process) (fn : Nat) (f : Fault)
    (hbind : mono_bind env p libmono_path = (p1, .ok true))
    (hlib : p1.g_mono.isSome = true) (hfn : p1.coreclr_initialize = some fn)
    (hl : create_flatten env properties = .error f) :
    create env p libmono_path exe_path app_domain_friendly_name properties inst =
      (p1, .error f) := by
  have hc : cassert env.NDEBUG (p1.g_mono.isSome && p1.coreclr_initialize.isSome) = .ok () := by
    simp [cassert, hlib, hfn]
  unfold create
  rw [hbind]
  dsimp only
  rw [hc]
  dsimp only
  rw [hl]

/-- What `create` does once the binder returned true with the library handle and
`coreclr_initialize` non-null. -/
theorem create_of_bind_true (env : Env) (p : Process) (libmono_path : string_t)
    (exe_path app_domain_friendly_name : c_str) (properties : mono_property_bag_t)
    (inst : Option Mono.mono_t) (p1 : Process) (fn : Nat) (l : create_locals)
    (hbind : mono_bind env p libmono_path = (p1, .ok true))
    (hlib : p1.g_mono.isSome = true) (hfn : p1.coreclr_initialize = some fn)
    (hl : create_flatten env properties = .ok l) :
    create env p libmono_path exe_path app_domain_friendly_name properties inst =
      (p1.record (Call.coreclr_initialize fn exe_path app_domain_friendly_name
          properties.count l.keys l.values),
        if (!env.SUCCEEDED (env.mono_initialize_fn p1.calls fn exe_path
            app_domain_friendly_name properties.count l.keys l.values).hr) = true
        then .ok ((env.mono_initialize_fn p1.calls fn exe_path app_domain_friendly_name
            properties.count l.keys l.values).hr, inst)
        else .ok (env.Success,
          some (mono_t
            (env.mono_initialize_fn p1.calls fn exe_path app_domain_friendly_name
              properties.count l.keys l.values).hostHandle
            (env.mono_initialize_fn p1.calls fn exe_path app_domain_friendly_name
              properties.count l.keys l.values).domainId))) := by
  have hc : cassert env.NDEBUG (p1.g_mono.isSome && p1.coreclr_initialize.isSome) = .ok () := by
    simp [cassert, hlib, hfn]
  unfold create
  rw [hbind]
  dsimp only
  rw [hc]
  dsimp only
  rw [hl]
  dsimp only
  rw [hfn]
  dsimp only
  split <;> rfl

/-- The binder entered with the library handle already set, in a build with assertions:
its first assertion fails and nothing else happens. -/
theorem mono_bind_entry_violation (env : Env) (p : Process) (libmono_path : string_t)
    (hN : env.NDEBUG = false) (hb : p.g_mono.isSome = true) :
    mono_bind env p libmono_path = (p, .error .assertion) := by
  have hnone : p.g_mono.isNone = false := by
    cases hg : p.g_mono with
    | none => rw [hg] at hb; simp at hb
    | some x => rfl
  simp [mono_bind, cassert, hN, hnone]

/-- The binder in a build without assertions: whatever the state, it calls `load_library`,
stores what the loader leaves in `g_mono`, and after a successful load looks up the four
symbols, one after the other. -/
theorem mono_bind_release (env : Env) (p : Process) (libmono_path : string_t)
    (hN : env.NDEBUG = true) :
    (mono_bind env p libmono_path).1.g_mono =
      (env.load_library p.calls (env.append_path libmono_path env.LIBMONO_NAME) p.g_mono).2 ∧
    ((env.load_library p.calls (env.append_path libmono_path env.LIBMONO_NAME) p.g_mono).1 =
        false →
      (mono_bind env p libmono_path).1.calls =
        p.calls ++ [Call.load_library (env.append_path libmono_path env.LIBMONO_NAME)]) ∧
    ((env.load_library p.calls (env.append_path libmono_path env.LIBMONO_NAME) p.g_mono).1 =
        true →
      (mono_bind env p libmono_path).1.calls =
        p.calls ++ [Call.load_library (env.append_path libmono_path env.LIBMONO_NAME),
          Call.get_symbol (env.load_library p.calls
            (env.append_path libmono_path env.LIBMONO_NAME) p.g_mono).2 "coreclr_initialize",
          Call.get_symbol (env.load_library p.calls
            (env.append_path libmono_path env.LIBMONO_NAME) p.g_mono).2 "coreclr_shutdown_2",
          Call.get_symbol (env.load_library p.calls
            (env.append_path libmono_path env.LIBMONO_NAME) p.g_mono).2
            "coreclr_execute_assembly",
          Call.get_symbol (env.load_library p.calls
            (env.append_path libmono_path env.LIBMONO_NAME) p.g_mono).2
            "coreclr_create_delegate"]) := by
  have hc : ∀ c, cassert env.NDEBUG c = .ok () := fun c => by simp [cassert, hN]
  cases hl : (env.load_library p.calls (env.append_path libmono_path env.LIBMONO_NAME)
      p.g_mono).1 <;>
    simp [mono_bind, hc, hl, Process.record]

/-- The process `create` leaves behind has the binder state `mono_bind` left, and its calls
are those of `mono_bind` followed by what `create` itself calls. -/
theorem create_extends_bind (env : Env) (p : Process) (libmono_path : string_t)
    (exe_path app_domain_friendly_name : c_str) (properties : mono_property_bag_t)
    (inst : Option Mono.mono_t) :
    (create env p libmono_path exe_path app_domain_friendly_name properties inst).1.g_mono =
      (mono_bind env p libmono_path).1.g_mono ∧
    ∃ more : List Call,
      (create env p libmono_path exe_path app_domain_friendly_name properties inst).1.calls =
        (mono_bind env p libmono_path).1.calls ++ more := by
  rcases hb : mono_bind env p libmono_path with ⟨p1, r⟩
  cases r with
  | error f =>
    rw [create_of_bind_error env p libmono_path exe_path app_domain_friendly_name properties
      inst p1 f hb]
    exact ⟨rfl, [], by simp⟩
  | ok b =>
    cases b with
    | false =>
      rw [create_of_bind_false env p libmono_path exe_path app_domain_friendly_name
        properties inst p1 hb]
      exact ⟨rfl, _, rfl⟩
    | true =>
      unfold create
      rw [hb]
      dsimp only
      split
      · exact ⟨rfl, [], by simp⟩
      · split
        · exact ⟨rfl, [], by simp⟩
        · split
          · exact ⟨rfl, [], by simp⟩
          · split <;> exact ⟨rfl, _, rfl⟩

end mono_t

/-! ## Claims about the handle and the binder, continued -/

namespace mono_t

/-- C13, as the code has it: take any bag of fewer than `2^31` entries that a caller can
have and call `create` where the binder returns true with the library handle and
`coreclr_initialize` non-null.  Then `create` calls the entry
point once, with the executable path and the friendly name as given, with `count()` as
property count, and with two arrays that hold, index by index, the encoded key and the
encoded value of the entries `entries`: a list of `count()` entries with pairwise different
keys that holds `(k, v)` exactly when `try_get(k)` yields `v` on the bag, so every entry of
the bag stands at exactly one index. -/
theorem create_passes_flattened_bag (env : Env) (p : Process) (libmono_path : string_t)
    (exe_path app_domain_friendly_name : c_str) (ops : List mono_property_bag_t.bag_op)
    (slot : Option string_t) (inst : Option Mono.mono_t) (p1 : Process) (fn : Nat)
    (hbind : mono_bind env p libmono_path = (p1, .ok true))
    (hlib : p1.g_mono.isSome = true) (hfn : p1.coreclr_initialize = some fn)
    (hsize : unordered_map.size (mono_property_bag_t.reach ops)._properties < 2147483648) :
    ∃ entries : List (string_t × string_t),
      (entries.length : Int) = (mono_property_bag_t.reach ops).count ∧
      (entries.map Prod.fst).Nodup ∧
      (∀ k v : string_t, (k, v) ∈ entries ↔
        mono_property_bag_t.try_get env.NDEBUG (mono_property_bag_t.reach ops) (some k)
            (some slot) =
          .ok { ret := true, value := some (some v), self := mono_property_bag_t.reach ops }) ∧
      (create env p libmono_path exe_path app_domain_friendly_name
          (mono_property_bag_t.reach ops) inst).1.calls =
        p1.calls ++ [Call.coreclr_initialize fn exe_path app_domain_friendly_name
          (mono_property_bag_t.reach ops).count
          (entries.map (fun e => some (env.pal_clrstring e.1 []).2))
          (entries.map (fun e => some (env.pal_clrstring e.2 []).2))] := by
  have hnd := mono_property_bag_t.nodup_keys_reach ops
  refine ⟨(mono_property_bag_t.reach ops)._properties, (count_of_lt _ hsize).symm, hnd,
    fun k v => ?_, ?_⟩
  · rw [mono_property_bag_t.mem_iff_find_of_nodup _ hnd, mono_property_bag_t.try_get_some]
    cases h : unordered_map.find (mono_property_bag_t.reach ops)._properties k with
    | none => simp
    | some kv =>
      have hk := unordered_map.find_key h
      constructor
      · intro e
        cases e
        rfl
      · intro e
        simp only [Except.ok.injEq, mono_property_bag_t.try_get_result.mk.injEq,
          Option.some.injEq, true_and, and_true] at e
        cases kv
        simp only at hk e
        rw [hk, e]
  · rw [create_of_bind_true env p libmono_path exe_path app_domain_friendly_name _ inst p1 fn
      _ hbind hlib hfn (create_flatten_content env _ hsize)]
    rfl

/-- C13 at a concrete input: the stand-in library and the bag of the scenario of the spec.
The entry point is called with count 2 and the two pairs in encoded form. -/
theorem create_passes_flattened_bag_witness :
    mono_bind mockmono Process.start "/opt/mono" = (mockmono_bound, .ok true) ∧
    mockmono_bound.g_mono.isSome = true ∧ mockmono_bound.coreclr_initialize = some 101 ∧
    unordered_map.size (mono_property_bag_t.reach
      [mono_property_bag_t.bag_op.add (some "APP_PATHS") (some "/bin"),
       mono_property_bag_t.bag_op.add (some "CUSTOM_KEY") (some "1")])._properties <
      2147483648 ∧
    (create mockmono Process.start "/opt/mono" (some "/app/app") (some "app")
        (mono_property_bag_t.reach
          [mono_property_bag_t.bag_op.add (some "APP_PATHS") (some "/bin"),
           mono_property_bag_t.bag_op.add (some "CUSTOM_KEY") (some "1")]) none).1.calls =
      mockmono_bound.calls ++ [Call.coreclr_initialize 101 (some "/app/app") (some "app") 2
        [some "APP_PATHS".toList, some "CUSTOM_KEY".toList]
        [some "/bin".toList, some "1".toList]] ∧
    ∃ entries : List (string_t × string_t),
      (entries.length : Int) =
        (mono_property_bag_t.reach
          [mono_property_bag_t.bag_op.add (some "APP_PATHS") (some "/bin"),
           mono_property_bag_t.bag_op.add (some "CUSTOM_KEY") (some "1")]).count ∧
      (entries.map Prod.fst).Nodup ∧
      (∀ k v : string_t, (k, v) ∈ entries ↔
        mono_property_bag_t.try_get mockmono.NDEBUG
            (mono_property_bag_t.reach
              [mono_property_bag_t.bag_op.add (some "APP_PATHS") (some "/bin"),
               mono_property_bag_t.bag_op.add (some "CUSTOM_KEY") (some "1")])
            (some k) (some none) =
          .ok { ret := true, value := some (some v),
                self := mono_property_bag_t.reach
                  [mono_property_bag_t.bag_op.add (some "APP_PATHS") (some "/bin"),
                   mono_property_bag_t.bag_op.add (some "CUSTOM_KEY") (some "1")] }) ∧
      (create mockmono Process.start "/opt/mono" (some "/app/app") (some "app")
          (mono_property_bag_t.reach
            [mono_property_bag_t.bag_op.add (some "APP_PATHS") (some "/bin"),
             mono_property_bag_t.bag_op.add (some "CUSTOM_KEY") (some "1")]) none).1.calls =
        mockmono_bound.calls ++ [Call.coreclr_initialize 101 (some "/app/app") (some "app")
          (mono_property_bag_t.reach
            [mono_property_bag_t.bag_op.add (some "APP_PATHS") (some "/bin"),
             mono_property_bag_t.bag_op.add (some "CUSTOM_KEY") (some "1")]).count
          (entries.map (fun e => some (mockmono.pal_clrstring e.1 []).2))
          (entries.map (fun e => some (mockmono.pal_clrstring e.2 []).2))] :=
  ⟨by decide, rfl, rfl, by decide, by decide,
   create_passes_flattened_bag mockmono Process.start "/opt/mono" (some "/app/app")
     (some "app")
     [mono_property_bag_t.bag_op.add (some "APP_PATHS") (some "/bin"),
      mono_property_bag_t.bag_op.add (some "CUSTOM_KEY") (some "1")]
     none none mockmono_bound 101 (by decide) rfl rfl (by decide)⟩

/-- C14: in a process with the library loaded and both entry points resolved, for every
handle, whatever its shutdown flag: `execute_assembly` calls the execute-assembly entry point
once, with the handle's host handle and domain id and the caller's arguments, and returns
its status; `create_delegate` does the same with the create-delegate entry point.  Both hand
back the handle as it was (host handle, domain id and flag). -/
theorem execute_and_create_delegate_forward (env : Env) (p : Process) (self : Mono.mono_t)
    (fe fd : Nat) (argc : Int) (argv : List c_str) (managed_assembly_path : c_str)
    (exit_code : Option Nat)
    (entryPointAssemblyName entryPointTypeName entryPointMethodName : c_str)
    (delegate : Option Nat)
    (hlib : p.g_mono.isSome = true) (hfe : p.coreclr_execute_assembly = some fe)
    (hfd : p.coreclr_create_delegate = some fd) :
    execute_assembly env p self argc argv managed_assembly_path exit_code =
      (p.record (Call.coreclr_execute_assembly fe self._host_handle self._domain_id argc argv
          managed_assembly_path exit_code),
       .ok { ret := (env.mono_execute_assembly_fn p.calls fe self._host_handle
                      self._domain_id argc argv managed_assembly_path exit_code).1,
             exit_code := exit_code.map (fun _ =>
               (env.mono_execute_assembly_fn p.calls fe self._host_handle self._domain_id
                 argc argv managed_assembly_path exit_code).2),
             self := self }) ∧
    create_delegate env p self entryPointAssemblyName entryPointTypeName entryPointMethodName
        delegate =
      (p.record (Call.coreclr_create_delegate fd self._host_handle self._domain_id
          entryPointAssemblyName entryPointTypeName entryPointMethodName delegate),
       .ok { ret := (env.mono_create_delegate_fn p.calls fd self._host_handle
                      self._domain_id entryPointAssemblyName entryPointTypeName
                      entryPointMethodName delegate).1,
             delegate := delegate.map (fun _ =>
               (env.mono_create_delegate_fn p.calls fd self._host_handle self._domain_id
                 entryPointAssemblyName entryPointTypeName entryPointMethodName delegate).2),
             self := self }) := by
  constructor
  · cases hN : env.NDEBUG <;> simp [execute_assembly, cassert, hN, hlib, hfe]
  · cases hN : env.NDEBUG <;> simp [create_delegate, cassert, hN, hlib, hfe, hfd]

/-- C14 at a concrete input: a handle of the stand-in runtime whose shutdown flag is set;
both calls still go to the entry points. -/
theorem execute_and_create_delegate_forward_witness :
    mockmono_bound.g_mono.isSome = true ∧
    mockmono_bound.coreclr_execute_assembly = some 103 ∧
    mockmono_bound.coreclr_create_delegate = some 104 ∧
    execute_assembly mockmono mockmono_bound
        { _is_shutdown := true, _host_handle := 77, _domain_id := 1 }
        1 [some "app.dll"] (some "/app/app.dll") (some 0) =
      (mockmono_bound.record (Call.coreclr_execute_assembly 103 77 1 1 [some "app.dll"]
          (some "/app/app.dll") (some 0)),
       .ok { ret := 0, exit_code := some 42,
             self := { _is_shutdown := true, _host_handle := 77, _domain_id := 1 } }) ∧
    create_delegate mockmono mockmono_bound
        { _is_shutdown := true, _host_handle := 77, _domain_id := 1 }
        (some "App") (some "App.Program") (some "Main") (some 0) =
      (mockmono_bound.record (Call.coreclr_create_delegate 104 77 1 (some "App")
          (some "App.Program") (some "Main") (some 0)),
       .ok { ret := 0, delegate := some 8192,
             self := { _is_shutdown := true, _host_handle := 77, _domain_id := 1 } }) :=
  have h := execute_and_create_delegate_forward mockmono mockmono_bound
    { _is_shutdown := true, _host_handle := 77, _domain_id := 1 } 103 104
    1 [some "app.dll"] (some "/app/app.dll") (some 0)
    (some "App") (some "App.Program") (some "Main") (some 0) rfl rfl rfl
  ⟨rfl, rfl, rfl, h.1, h.2⟩

/-- C15, as the code has it: once the library handle is set, a further `create` enters
`mono_bind` again.  In a build with assertions the assertion at the entry of the binder
fails and `create` stops there: nothing is returned, the process is as it was (no call was
made, the library handle and the four pointers are unchanged).  In a build without
assertions `create` calls `load_library` again and stores what the loader leaves in
`g_mono`; after a successful load it looks up the four symbols again.  The calls on a handle
(`execute_assembly`, `create_delegate`, `shutdown`) leave the binder state as it is. -/
theorem create_again_rebinds (env : Env) (p : Process) (libmono_path : string_t)
    (exe_path app_domain_friendly_name : c_str) (properties : mono_property_bag_t)
    (inst : Option Mono.mono_t) (self : Mono.mono_t) (op : handle_op)
    (hbound : p.g_mono.isSome = true) :
    (env.NDEBUG = false →
      create env p libmono_path exe_path app_domain_friendly_name properties inst =
        (p, .error .assertion)) ∧
    (env.NDEBUG = true →
      (create env p libmono_path exe_path app_domain_friendly_name properties inst).1.g_mono =
        (env.load_library p.calls (env.append_path libmono_path env.LIBMONO_NAME)
          p.g_mono).2 ∧
      ∃ rest : List Call,
        (create env p libmono_path exe_path app_domain_friendly_name properties
            inst).1.calls =
          p.calls ++ Call.load_library (env.append_path libmono_path env.LIBMONO_NAME) ::
            rest ∧
        ((env.load_library p.calls (env.append_path libmono_path env.LIBMONO_NAME)
            p.g_mono).1 = true →
          ∃ more : List Call, rest =
            [Call.get_symbol (env.load_library p.calls
                (env.append_path libmono_path env.LIBMONO_NAME) p.g_mono).2
                "coreclr_initialize",
              Call.get_symbol (env.load_library p.calls
                (env.append_path libmono_path env.LIBMONO_NAME) p.g_mono).2
                "coreclr_shutdown_2",
              Call.get_symbol (env.load_library p.calls
                (env.append_path libmono_path env.LIBMONO_NAME) p.g_mono).2
                "coreclr_execute_assembly",
              Call.get_symbol (env.load_library p.calls
                (env.append_path libmono_path env.LIBMONO_NAME) p.g_mono).2
                "coreclr_create_delegate"] ++ more)) ∧
    ((step env p self op).1.g_mono = p.g_mono ∧
      (step env p self op).1.coreclr_shutdown = p.coreclr_shutdown ∧
      Process.coreclr_initialize (step env p self op).1 = p.coreclr_initialize ∧
      (step env p self op).1.coreclr_execute_assembly = p.coreclr_execute_assembly ∧
      (step env p self op).1.coreclr_create_delegate = p.coreclr_create_delegate) := by
  refine ⟨?_, ?_, step_globals env p self op⟩
  · intro hN
    exact create_of_bind_error env p libmono_path exe_path app_domain_friendly_name
      properties inst p _ (mono_bind_entry_violation env p libmono_path hN hbound)
  · intro hN
    obtain ⟨hg, more, hcalls⟩ := create_extends_bind env p libmono_path exe_path
      app_domain_friendly_name properties inst
    obtain ⟨hg2, hfail, hok⟩ := mono_bind_release env p libmono_path hN
    refine ⟨hg.trans hg2, ?_⟩
    cases hl : (env.load_library p.calls (env.append_path libmono_path env.LIBMONO_NAME)
        p.g_mono).1 with
    | false =>
      refine ⟨more, ?_, fun h => by simp at h⟩
      rw [hcalls, hfail hl]
      simp
    | true =>
      refine ⟨_, ?_, fun _ => ⟨more, rfl⟩⟩
      rw [hcalls, hok hl]
      simp

/-- C15 at a concrete input: a second `create` in the process in which the stand-in library
is bound, in a build with assertions. -/
theorem create_again_rebinds_witness :
    mockmono_bound.g_mono.isSome = true ∧
    create mockmono mockmono_bound "/opt/mono" (some "/app/app") (some "app")
        { _properties := [("APP_PATHS", "/bin")] } none =
      (mockmono_bound, .error .assertion) :=
  ⟨rfl, (create_again_rebinds mockmono mockmono_bound "/opt/mono" (some "/app/app")
    (some "app") { _properties := [("APP_PATHS", "/bin")] } none (mono_t 77 1)
    (handle_op.shutdown none) rfl).1 rfl⟩

/-- C15 as stated fails: the first `create` binds the stand-in library and yields a handle.
A second `create` in that process violates the assertion at the entry of the binder in a
build with assertions; in a build without assertions it loads the library and looks up the
four symbols a second time. -/
theorem create_again_counterexample :
    (create mockmono Process.start "/opt/mono" (some "/app/app") (some "app")
        { _properties := [("APP_PATHS", "/bin")] } none).2 = .ok (0, some (mono_t 77 1)) ∧
    (create mockmono
        (create mockmono Process.start "/opt/mono" (some "/app/app") (some "app")
          { _properties := [("APP_PATHS", "/bin")] } none).1
        "/opt/mono" (some "/app/app") (some "app")
        { _properties := [("APP_PATHS", "/bin")] } none).2 = .error .assertion ∧
    (create mockmono_release Process.start "/opt/mono" (some "/app/app") (some "app")
        { _properties := [("APP_PATHS", "/bin")] } none).2 = .ok (0, some (mono_t 77 1)) ∧
    (create mockmono_release
        (create mockmono_release Process.start "/opt/mono" (some "/app/app") (some "app")
          { _properties := [("APP_PATHS", "/bin")] } none).1
        "/opt/mono" (some "/app/app") (some "app")
        { _properties := [("APP_PATHS", "/bin")] } none).1.calls =
      [ Call.load_library "/opt/mono/libmono.so",
        Call.get_symbol (some 4096) "coreclr_initialize",
        Call.get_symbol (some 4096) "coreclr_shutdown_2",
        Call.get_symbol (some 4096) "coreclr_execute_assembly",
        Call.get_symbol (some 4096) "coreclr_create_delegate",
        Call.coreclr_initialize 101 (some "/app/app") (some "app") 1
          [some "APP_PATHS".toList] [some "/bin".toList],
        Call.load_library "/opt/mono/libmono.so",
        Call.get_symbol (some 4096) "coreclr_initialize",
        Call.get_symbol (some 4096) "coreclr_shutdown_2",
        Call.get_symbol (some 4096) "coreclr_execute_assembly",
        Call.get_symbol (some 4096) "coreclr_create_delegate",
        Call.coreclr_initialize 101 (some "/app/app") (some "app") 1
          [some "APP_PATHS".toList] [some "/bin".toList] ] := by
  decide

/-- C17, as the code has it: in `create`, for every bag of fewer than `2^31` entries:
whenever the callback is about to be called (the entries `pre` have been visited, `kv` is
next), the index is the number of entries visited so far, at least 0 and strictly below
`propertyCount`, so each of its four writes is inside the vectors.  The enumeration returns
(no write is out of bounds), with the index equal to `propertyCount`, with four vectors of
`propertyCount` entries, and with every slot of the two pointer vectors filled (non-null). -/
theorem create_index_in_bounds (env : Env) (properties : mono_property_bag_t)
    (hsize : unordered_map.size properties._properties < 2147483648) :
    (∀ (pre post : List (string_t × string_t)) (kv : string_t × string_t),
      properties._properties = pre ++ kv :: post →
      ∃ l0 : create_locals,
        pre.foldl (fun s e => create_callback env e.1 e.2 s)
          (.ok (create_locals.start properties.count)) = .ok l0 ∧
        l0.index = (pre.length : Int) ∧ 0 ≤ l0.index ∧ l0.index < properties.count ∧
        l0.index.toNat < l0.keys_strs.length ∧ l0.index.toNat < l0.keys.length ∧
        l0.index.toNat < l0.values_strs.length ∧ l0.index.toNat < l0.values.length) ∧
    ∃ l : create_locals, create_flatten env properties = .ok l ∧
      l.index = properties.count ∧
      (l.keys_strs.length : Int) = properties.count ∧
      (l.keys.length : Int) = properties.count ∧
      (l.values_strs.length : Int) = properties.count ∧
      (l.values.length : Int) = properties.count ∧
      (∀ x ∈ l.keys, x ≠ none) ∧ (∀ x ∈ l.values, x ≠ none) := by
  have hc := count_of_lt properties hsize
  simp only [unordered_map.size] at hc
  constructor
  · intro pre post kv hsplit
    have h := create_fold_content env pre [] (post.length + 1)
    have hcast : properties.count = ((pre.length + (post.length + 1) : Nat) : Int) := by
      rw [hc, hsplit]; simp
    have hcount : properties.count.toNat = pre.length + (post.length + 1) := by
      rw [hcast]; exact Int.toNat_ofNat _
    simp only [List.map_nil, List.nil_append, List.length_nil, Nat.cast_zero] at h
    have hstart : create_locals.start properties.count =
        { keys_strs := List.replicate (pre.length + (post.length + 1)) [],
          keys := List.replicate (pre.length + (post.length + 1)) none,
          values_strs := List.replicate (pre.length + (post.length + 1)) [],
          values := List.replicate (pre.length + (post.length + 1)) none, index := 0 } := by
      unfold create_locals.start
      rw [hcount]
    rw [← hstart] at h
    refine ⟨_, h, ?_, ?_, ?_, ?_, ?_, ?_, ?_⟩
    · rfl
    · simp
    · rw [hcast]
      simp only
      omega
    all_goals simp
  · refine ⟨_, create_flatten_content env properties hsize, rfl, ?_, ?_, ?_, ?_, ?_, ?_⟩
    · simp [hc]
    · simp [hc]
    · simp [hc]
    · simp [hc]
    · intro x hx
      simp only [List.mem_map] at hx
      obtain ⟨e, _, rfl⟩ := hx
      simp
    · intro x hx
      simp only [List.mem_map] at hx
      obtain ⟨e, _, rfl⟩ := hx
      simp

/-- C17 at a concrete input: the bag of the scenario of the spec.  The filling returns with
index 2 and both slots of each pointer vector set. -/
theorem create_index_in_bounds_witness :
    unordered_map.size
      (mono_property_bag_t.mk [("APP_PATHS", "/bin"), ("CUSTOM_KEY", "1")])._properties <
      2147483648 ∧
    create_flatten mockmono { _properties := [("APP_PATHS", "/bin"), ("CUSTOM_KEY", "1")] } =
      .ok { keys_strs := ["APP_PATHS".toList, "CUSTOM_KEY".toList],
            keys := [some "APP_PATHS".toList, some "CUSTOM_KEY".toList],
            values_strs := ["/bin".toList, "1".toList],
            values := [some "/bin".toList, some "1".toList],
            index := 2 } ∧
    ∃ l : create_locals,
      create_flatten mockmono
        { _properties := [("APP_PATHS", "/bin"), ("CUSTOM_KEY", "1")] } = .ok l ∧
      l.index =
        mono_property_bag_t.count
          { _properties := [("APP_PATHS", "/bin"), ("CUSTOM_KEY", "1")] } ∧
      (l.keys_strs.length : Int) =
        mono_property_bag_t.count
          { _properties := [("APP_PATHS", "/bin"), ("CUSTOM_KEY", "1")] } ∧
      (l.keys.length : Int) =
        mono_property_bag_t.count
          { _properties := [("APP_PATHS", "/bin"), ("CUSTOM_KEY", "1")] } ∧
      (l.values_strs.length : Int) =
        mono_property_bag_t.count
          { _properties := [("APP_PATHS", "/bin"), ("CUSTOM_KEY", "1")] } ∧
      (l.values.length : Int) =
        mono_property_bag_t.count
          { _properties := [("APP_PATHS", "/bin"), ("CUSTOM_KEY", "1")] } ∧
      (∀ x ∈ l.keys, x ≠ none) ∧ (∀ x ∈ l.values, x ≠ none) :=
  ⟨by decide, by decide,
   (create_index_in_bounds mockmono
      { _properties := [("APP_PATHS", "/bin"), ("CUSTOM_KEY", "1")] } (by decide)).2⟩

end mono_t

/-! ## Bags of `2^31` entries and more -/

namespace unordered_map

theorem emplace_of_find_none (m : List (string_t × string_t)) (k v : string_t)
    (h : find m k = none) : emplace m k v = m ++ [(k, v)] := by
  induction m with
  | nil => rfl
  | cons a m ih =>
    unfold find at h
    by_cases e : a.1 = k
    · simp [e] at h
    · simp only [e, if_false] at h
      simp only [emplace, if_neg e, ih h, List.cons_append]

end unordered_map

namespace mono_property_bag_t

theorem many_key_inj {i j : Nat} (h : many_key i = many_key j) : i = j := by
  have hl := congrArg String.length h
  simpa [many_key, String.length] using hl

theorem many_adds_succ (n : Nat) :
    many_adds (n + 1) = many_adds n ++ [bag_op.add (some (many_key n)) (some "")] := by
  simp [many_adds, List.range_succ]

/-- The bag after `many_adds n`: the `n` entries, in the order they were added. -/
theorem reach_many_adds (n : Nat) :
    reach (many_adds n) = { _properties := (List.range n).map (fun i => (many_key i, "")) } := by
  induction n with
  | zero => rfl
  | succ n ih =>
    have hfind : unordered_map.find ((List.range n).map (fun i => (many_key i, "")))
        (many_key n) = none := by
      rw [unordered_map.find_eq_none_iff]
      intro hmem
      simp only [List.map_map, List.mem_map, List.mem_range, Function.comp] at hmem
      obtain ⟨i, hi, hk⟩ := hmem
      have := many_key_inj hk
      omega
    rw [many_adds_succ, reach, apply_all_append]
    change apply_all (reach (many_adds n)) _ = _
    rw [ih]
    simp only [apply_all, List.foldl_cons, List.foldl_nil, apply, add, hfind,
      unordered_map.emplace_of_find_none _ _ _ hfind, List.range_succ, List.map_append,
      List.map_cons, List.map_nil]

theorem size_reach_many_adds (n : Nat) :
    unordered_map.size (reach (many_adds n))._properties = n := by
  rw [reach_many_adds]
  simp [unordered_map.size]

theorem count_reach_many_adds (n : Nat) :
    (reach (many_adds n)).count = static_cast_int_size_t n := by
  unfold count
  rw [size_reach_many_adds]

theorem has_many_key (n i : Nat) : (reach (many_adds n)).has (many_key i) = decide (i < n) := by
  rw [has_eq, reach_many_adds]
  by_cases h : i < n
  · rw [decide_eq_true h, unordered_map.find_isSome_iff]
    simp only [List.map_map, List.mem_map, List.mem_range, Function.comp]
    exact ⟨i, h, rfl⟩
  · rw [decide_eq_false h]
    have hnone : unordered_map.find ((List.range n).map (fun i => (many_key i, "")))
        (many_key i) = none := by
      rw [unordered_map.find_eq_none_iff]
      intro hmem
      simp only [List.map_map, List.mem_map, List.mem_range, Function.comp] at hmem
      obtain ⟨j, hj, hk⟩ := hmem
      have := many_key_inj hk
      omega
    rw [hnone]
    rfl

/-- Adding the next key to the bag of `n` entries gives the bag of `n + 1` entries. -/
theorem add_many_key (n : Nat) :
    (reach (many_adds n)).add (some (many_key n)) (some "") =
      (true, reach (many_adds (n + 1))) := by
  have hhas := has_many_key n n
  rw [has_eq, decide_eq_false (Nat.lt_irrefl n)] at hhas
  have hfind : unordered_map.find (reach (many_adds n))._properties (many_key n) = none := by
    cases hf : unordered_map.find (reach (many_adds n))._properties (many_key n) with
    | none => rfl
    | some kv => rw [hf] at hhas; simp at hhas
  have h2 : reach (many_adds (n + 1)) =
      ((reach (many_adds n)).add (some (many_key n)) (some "")).2 := by
    rw [many_adds_succ, reach, apply_all_append]
    rfl
  rw [h2]
  simp only [add, hfind]

/-- After `remove` of a present key the bag has one entry less. -/
theorem size_remove_present (bag : Mono.mono_property_bag_t) (k : string_t)
    (h : bag.has k = true) :
    unordered_map.size (bag.remove (some k))._properties + 1 =
      unordered_map.size bag._properties := by
  rw [has_eq] at h
  cases hf : unordered_map.find bag._properties k with
  | none => rw [hf] at h; simp at h
  | some kv =>
    simp only [remove, hf]
    exact unordered_map.length_erase _ _ h

/-- C7 as stated fails: on the bag of `2^31 - 1` entries, `add` of an absent key returns true
and `count()` goes from `2147483647` to `-2147483648`; it does not grow by one. -/
theorem add_count_counterexample :
    (reach (many_adds 2147483647)).has (many_key 2147483647) = false ∧
    (reach (many_adds 2147483647)).count = 2147483647 ∧
    ((reach (many_adds 2147483647)).add (some (many_key 2147483647)) (some "")).1 = true ∧
    ((reach (many_adds 2147483647)).add (some (many_key 2147483647)) (some "")).2.count =
      -2147483648 ∧
    ((reach (many_adds 2147483647)).add (some (many_key 2147483647)) (some "")).2.count ≠
      (reach (many_adds 2147483647)).count + 1 := by
  have hadd := add_many_key 2147483647
  have hc1 : (reach (many_adds 2147483647)).count = 2147483647 := by
    rw [count_reach_many_adds]; decide
  have hc2 : ((reach (many_adds 2147483647)).add (some (many_key 2147483647))
      (some "")).2.count = -2147483648 := by
    rw [hadd]
    dsimp only
    rw [count_reach_many_adds]; decide
  refine ⟨?_, hc1, ?_, hc2, ?_⟩
  · rw [has_many_key]; decide
  · rw [hadd]
  · rw [hc1, hc2]; decide

/-- C9 as stated fails: the bag of `2^31` entries has `2^31` keys on which `try_get`
succeeds, and `count()` is `-2147483648`. -/
theorem count_counterexample :
    (reach (many_adds 2147483648)).count = -2147483648 ∧
    Set.ncard {k : string_t | (reach (many_adds 2147483648)).has k = true} = 2147483648 ∧
    (reach (many_adds 2147483648)).count ≠
      ((Set.ncard {k : string_t | (reach (many_adds 2147483648)).has k = true} : Nat) :
        Int) := by
  have hc : (reach (many_adds 2147483648)).count = -2147483648 := by
    rw [count_reach_many_adds]; decide
  have hn : Set.ncard {k : string_t | (reach (many_adds 2147483648)).has k = true} =
      2147483648 := by
    rw [ncard_has_reach, size_reach_many_adds]
  refine ⟨hc, hn, ?_⟩
  rw [hc, hn]
  decide

/-- C11 as stated fails: on the bag of `2^31` entries, `remove` of a present key takes
`count()` from `-2147483648` to `2147483647`; it is not one less. -/
theorem remove_count_counterexample :
    (reach (many_adds 2147483648)).has (many_key 0) = true ∧
    (reach (many_adds 2147483648)).count = -2147483648 ∧
    ((reach (many_adds 2147483648)).remove (some (many_key 0))).count = 2147483647 ∧
    ((reach (many_adds 2147483648)).remove (some (many_key 0))).count ≠
      (reach (many_adds 2147483648)).count - 1 := by
  have hhas : (reach (many_adds 2147483648)).has (many_key 0) = true := by
    rw [has_many_key]; decide
  have hc : (reach (many_adds 2147483648)).count = -2147483648 := by
    rw [count_reach_many_adds]; decide
  have hsize := size_remove_present _ _ hhas
  rw [size_reach_many_adds] at hsize
  have hs2 : unordered_map.size
      ((reach (many_adds 2147483648)).remove (some (many_key 0)))._properties =
      2147483647 := by omega
  have hc2 : ((reach (many_adds 2147483648)).remove (some (many_key 0))).count =
      2147483647 := by
    unfold count
    rw [hs2]; decide
  refine ⟨hhas, hc, hc2, ?_⟩
  rw [hc, hc2]
  decide

end mono_property_bag_t

namespace mono_t

/-- C13 as stated fails: with the bag of `2^31` entries `propertyCount` is `-2147483648`,
the first vector constructor of `create` throws, and the entry point is not called at all. -/
theorem create_flattened_counterexample :
    mono_bind mockmono Process.start "/opt/mono" = (mockmono_bound, .ok true) ∧
    (mono_property_bag_t.reach (mono_property_bag_t.many_adds 2147483648)).count =
      -2147483648 ∧
    create mockmono Process.start "/opt/mono" (some "/app/app") (some "app")
        (mono_property_bag_t.reach (mono_property_bag_t.many_adds 2147483648)) none =
      (mockmono_bound, .error .exception) ∧
    init_calls mockmono_bound.calls = 0 := by
  have hc : (mono_property_bag_t.reach (mono_property_bag_t.many_adds 2147483648)).count =
      -2147483648 := by
    rw [mono_property_bag_t.count_reach_many_adds]; decide
  refine ⟨by decide, hc, ?_, by decide⟩
  exact create_of_flatten_error mockmono Process.start "/opt/mono" (some "/app/app")
    (some "app") _ none mockmono_bound 101 _ (by decide) rfl rfl
    (create_flatten_negative mockmono _ (by rw [hc]; decide))

/-- C17 as stated fails: with the bag of `2^32 + 5` entries `propertyCount` is 5 and the
vectors have 5 slots; the sixth call of the callback has index 5, which is not below
`propertyCount`, and writes past the end. -/
theorem create_index_counterexample :
    unordered_map.size
      (mono_property_bag_t.reach (mono_property_bag_t.many_adds 4294967301))._properties =
      4294967301 ∧
    (mono_property_bag_t.reach (mono_property_bag_t.many_adds 4294967301)).count = 5 ∧
    create_flatten mockmono
        (mono_property_bag_t.reach (mono_property_bag_t.many_adds 4294967301)) =
      .error .undefined := by
  have hs := mono_property_bag_t.size_reach_many_adds 4294967301
  have hc : (mono_property_bag_t.reach (mono_property_bag_t.many_adds 4294967301)).count =
      5 := by
    rw [mono_property_bag_t.count_reach_many_adds]; decide
  refine ⟨hs, hc, ?_⟩
  apply create_flatten_overrun
  · rw [hc]; decide
  · rw [hc]
    simp only [unordered_map.size] at hs
    rw [hs]
    decide

end mono_t

end Mono
